import Mathlib

/-!
Verification development for the etl-python-sqlite repository.

The Python sources under scr/ are shallowly embedded as executable Lean
definitions: raw CSV rows become association lists from column name to an
optional string (a Python dict whose values may be None), the SQLite store
becomes an explicit record of the three tables, and each ETL function
becomes a pure function on that state.  Timestamps produced by
datetime.now are nondeterministic inputs and are passed as explicit
parameters.
-/

namespace ETL

/-! ### Python string primitives used by the transform step -/

/-- Models Python str.strip: remove leading and trailing whitespace. -/
def pyStrip (s : String) : String :=
  String.mk (((s.data.dropWhile Char.isWhitespace).reverse.dropWhile Char.isWhitespace).reverse)

/-- Models Python str.lower. -/
def pyLower (s : String) : String :=
  String.mk (s.data.map Char.toLower)

/-- Models Python str.capitalize: first character upper-cased, the rest lower-cased. -/
def pyCapitalize (s : String) : String :=
  match s.data with
  | [] => ""
  | c :: cs => String.mk (c.toUpper :: cs.map Char.toLower)

/-- Helper for pyTitle: the boolean records whether the previous character was alphabetic. -/
def titleAux : Bool → List Char → List Char
  | _, [] => []
  | prevAlpha, c :: cs =>
    (if c.isAlpha then (if prevAlpha then c.toLower else c.toUpper) else c) :: titleAux c.isAlpha cs

/-- Models Python str.title: a letter is upper-cased when it does not follow a letter. -/
def pyTitle (s : String) : String :=
  String.mk (titleAux false s.data)

/-- Numeric value of a list of decimal digit characters. -/
def digitsToNat (l : List Char) : Nat :=
  l.foldl (fun a c => 10 * a + (c.toNat - 48)) 0

/-- Models Python int(s) on a string: surrounding whitespace is stripped, an
optional sign is followed by a nonempty run of base-10 digits; anything else
raises ValueError, modelled as none. -/
def pyInt (s : String) : Option Int :=
  let t := ((s.data.dropWhile Char.isWhitespace).reverse.dropWhile Char.isWhitespace).reverse
  match t with
  | [] => none
  | '-' :: rest =>
    if rest.isEmpty then none
    else if rest.all Char.isDigit then some (-(digitsToNat rest : Int)) else none
  | '+' :: rest =>
    if rest.isEmpty then none
    else if rest.all Char.isDigit then some ((digitsToNat rest : Int)) else none
  | l =>
    if l.all Char.isDigit then some ((digitsToNat l : Int)) else none

/-! ### Raw rows and the transform step -/

/-- Models one raw CSV row as produced by csv.DictReader: a mapping from
column name to a value that is either a string or None. -/
abbrev Row := List (String × Option String)

/-- Models Python dict.get with a default: the stored value (possibly None)
when the key is present, the default otherwise. -/
def pyGet (row : Row) (k : String) (dflt : Option String) : Option String :=
  match row.find? (fun p => p.1 == k) with
  | none => dflt
  | some p => p.2

/-- Models the check required_cols.issubset(row.keys()) for the three
required columns nombre, edad, ciudad. -/
def hasRequiredCols (row : Row) : Bool :=
  (row.find? (fun p => p.1 == "nombre")).isSome &&
  (row.find? (fun p => p.1 == "edad")).isSome &&
  (row.find? (fun p => p.1 == "ciudad")).isSome

/-- A validated canonical record: (nombre, edad, ciudad). -/
abbrev Canon := String × Int × String

/-- A rejected record as built by scr/etl_incremental_audit.py and
scr/etl_relational.py: the raw field values plus a rejection reason.
Field values are Option String because a present-but-None dict value can
flow into the first rejection branch unchanged. -/
structure Rejected where
  nombre : Option String
  edad : Option String
  ciudad : Option String
  motivo : String
deriving DecidableEq, Repr

/-- Body of the per-row loop of transform_with_rejections in
scr/etl_incremental_audit.py (lines 26-81) and scr/etl_relational.py
(lines 32-92), which are identical: the five validation stages in source
order, short-circuiting at the first failure.  The text-normalization
try/except of the source cannot fire on string-typed values, so in the
model that stage is total. -/
def classifyRow (edad_min : Int) (row : Row) : Except Rejected Canon :=
  if hasRequiredCols row = false then
    .error ⟨pyGet row "nombre" (some ""), pyGet row "edad" (some ""),
            pyGet row "ciudad" (some ""), "Faltan columnas requeridas"⟩
  else
    match pyGet row "nombre" none, pyGet row "edad" none, pyGet row "ciudad" none with
    | some nombre_raw, some edad_raw, some ciudad_raw =>
      let nombre := pyCapitalize (pyLower (pyStrip nombre_raw))
      let ciudad := pyTitle (pyLower (pyStrip ciudad_raw))
      match pyInt edad_raw with
      | none => .error ⟨some nombre_raw, some edad_raw, some ciudad_raw,
                        "Edad no convertible a int"⟩
      | some edad =>
        if edad < edad_min then
          .error ⟨some nombre_raw, some edad_raw, some ciudad_raw,
                  "Edad < " ++ toString edad_min⟩
        else
          .ok (nombre, edad, ciudad)
    | nr, er, cr =>
      .error ⟨some (nr.getD ""), some (er.getD ""), some (cr.getD ""),
              "Valor None en campo requerido"⟩

/-- Loop body shared by the transform variants: append the row's outcome to
the valid or the rejected accumulator. -/
def partStep {α β γ : Type} (f : α → Except γ β) (acc : List β × List γ)
    (x : α) : List β × List γ :=
  match f x with
  | .ok v => (acc.1 ++ [v], acc.2)
  | .error r => (acc.1, acc.2 ++ [r])

/-- Models transform_with_rejections of scr/etl_incremental_audit.py
(lines 18-83): the loop appends each row's outcome to one of the two
accumulating lists. -/
def transform_with_rejections (datos_crudos : List Row) (edad_min : Int) :
    List Canon × List Rejected :=
  datos_crudos.foldl (partStep (classifyRow edad_min)) ([], [])

/-- A rejected record as built by scr/etl_batch.py: the whole raw row plus
the motivo value appended by the except branches. -/
abbrev RejectedB := Row × String

/-- Body of the per-row loop of transform_with_rejections in
scr/etl_batch.py (lines 50-67): a single try block covers text
normalization and int conversion, so a None value or an unparsable age
yields the same combined reason. -/
def classifyRowB (edad_min : Int) (row : Row) : Except RejectedB Canon :=
  if hasRequiredCols row = false then
    .error (row, "Faltan columnas")
  else
    match pyGet row "nombre" none, pyGet row "edad" none, pyGet row "ciudad" none with
    | some nombre_raw, some edad_raw, some ciudad_raw =>
      match pyInt edad_raw with
      | none => .error (row, "Normalización o tipo inválido")
      | some edad =>
        if edad < edad_min then
          .error (row, "Edad < " ++ toString edad_min)
        else
          .ok (pyCapitalize (pyLower (pyStrip nombre_raw)), edad,
               pyTitle (pyLower (pyStrip ciudad_raw)))
    | _, _, _ => .error (row, "Normalización o tipo inválido")

/-- Models transform_with_rejections of scr/etl_batch.py (lines 42-69). -/
def transform_with_rejections_batch (datos_crudos : List Row) (edad_min : Int) :
    List Canon × List RejectedB :=
  datos_crudos.foldl (partStep (classifyRowB edad_min)) ([], [])

/-- Valid component of a per-row outcome. -/
def okPart (e : Except α β) : Option β :=
  match e with
  | .ok b => some b
  | .error _ => none

/-- Rejected component of a per-row outcome. -/
def errPart (e : Except α β) : Option α :=
  match e with
  | .ok _ => none
  | .error a => some a

/-- Rejection reason of a per-row outcome, when it is a rejection. -/
def rejMotivo (e : Except Rejected Canon) : Option String :=
  match e with
  | .ok _ => none
  | .error r => some r.motivo

/-! ### Run identifiers -/

/-- A wall-clock instant broken into the fields used by strftime. -/
structure Timestamp where
  year : Nat
  month : Nat
  day : Nat
  hour : Nat
  minute : Nat
  second : Nat
  micro : Nat
deriving DecidableEq, Repr

/-- Fixed-width zero-padded decimal rendering of a field, as strftime does. -/
def padNum : Nat → Nat → List Char
  | 0, _ => []
  | w + 1, n => padNum w (n / 10) ++ [Nat.digitChar (n % 10)]

/-- Models the sanitization in make_run_id of scr/etl_batch.py: every
non-alphanumeric character of the source file name becomes an underscore. -/
def sanitize (s : String) : String :=
  String.mk (s.data.map (fun c => if c.isAlphanum then c else '_'))

/-- Models make_run_id of scr/etl_batch.py (lines 24-28): the strftime
pattern with microseconds, an underscore and the sanitized source name. -/
def make_run_id (ts : Timestamp) (source_file : String) : String :=
  String.mk (padNum 4 ts.year ++ padNum 2 ts.month ++ padNum 2 ts.day ++ ['T'] ++
    padNum 2 ts.hour ++ padNum 2 ts.minute ++ padNum 2 ts.second ++
    padNum 6 ts.micro ++ ['Z', '_'] ++ (sanitize source_file).data)

/-- Models the run_id built inside load_incremental of
scr/etl_incremental_audit.py (line 214): the strftime pattern has only
second resolution and no source suffix. -/
def incremental_run_id (ts : Timestamp) : String :=
  String.mk (padNum 4 ts.year ++ padNum 2 ts.month ++ padNum 2 ts.day ++ ['T'] ++
    padNum 2 ts.hour ++ padNum 2 ts.minute ++ padNum 2 ts.second ++ ['Z'])

/-! ### The relational store -/

/-- One row of the personas_limpias table.  For the older schema generation
(which lacks the processed_at and run_id columns) the two audit fields are
unused placeholders holding the empty string. -/
structure PersonRow where
  persona_id : Nat
  nombre : String
  edad : Int
  ciudad_id : Nat
  processed_at : String
  run_id : String
deriving DecidableEq, Repr

/-- Deduplication key of a person row: the UNIQUE(nombre, edad, ciudad_id)
triple. -/
def PersonRow.key (r : PersonRow) : String × Int × Nat :=
  (r.nombre, r.edad, r.ciudad_id)

/-- State of the personas_limpias table.  hasAudit records whether the
table carries the processed_at and run_id columns (the current schema) or
not (the older generation created by scr/etl_relational.py). -/
structure PersonTable where
  hasAudit : Bool
  rows : List PersonRow
  nextId : Nat
deriving DecidableEq, Repr

/-- One row of the etl_runs audit table. -/
structure RunRow where
  run_id : String
  started_at : String
  source_file : String
  valid_count : Nat
  rejected_count : Nat
  inserted_new : Int
  ignored_duplicates : Int
deriving DecidableEq, Repr

/-- The SQLite store datos_etl_relacional.db: the ciudades dimension table
with its autoincrement counter, the personas_limpias table (none when it
does not exist yet), and the etl_runs audit table. -/
structure Store where
  ciudades : List (Nat × String)
  ciudadesNextId : Nat
  personas : Option PersonTable
  etl_runs : List RunRow
deriving DecidableEq, Repr

/-- A store no script has touched yet. -/
def emptyStore : Store :=
  ⟨[], 1, none, []⟩

/-- Lookup of a city row by name, as SELECT ciudad_id FROM ciudades WHERE
nombre = ? does. -/
def findCity (s : Store) (name : String) : Option (Nat × String) :=
  s.ciudades.find? (fun p => p.2 == name)

/-- The ciudad_id a name resolves to, when the city exists. -/
def resolveCity (s : Store) (name : String) : Option Nat :=
  (findCity s name).map (fun p => p.1)

/-- Rows of the personas_limpias table, empty when the table is absent. -/
def tableRows (s : Store) : List PersonRow :=
  match s.personas with
  | none => []
  | some t => t.rows

/-- Models SELECT COUNT(*) FROM personas_limpias. -/
def countPersons (s : Store) : Nat :=
  (tableRows s).length

/-- Whether some person row carries the given deduplication key. -/
def keyPresentB (rows : List PersonRow) (k : String × Int × Nat) : Bool :=
  rows.any (fun r => r.key == k)

/-- Number of person rows carrying the given deduplication key. -/
def countKey (s : Store) (k : String × Int × Nat) : Nat :=
  (tableRows s).countP (fun r => r.key == k)

/-- Models get_or_create_city_id of scr/etl_incremental_audit.py (lines
187-190) and scr/etl_batch.py (lines 117-120): INSERT OR IGNORE into the
ciudades table followed by an authoritative SELECT of the id. -/
def get_or_create_city_id (s : Store) (ciudad : String) : Store × Nat :=
  match findCity s ciudad with
  | some p => (s, p.1)
  | none =>
    ({ s with
        ciudades := s.ciudades ++ [(s.ciudadesNextId, ciudad)],
        ciudadesNextId := s.ciudadesNextId + 1 },
     s.ciudadesNextId)

/-- Models INSERT OR IGNORE INTO personas_limpias: the row is appended with
a fresh autoincrement id unless its UNIQUE(nombre, edad, ciudad_id) key is
already present.  The table is guaranteed to exist at every call site, so
the none branch is inert. -/
def insertPersonOrIgnore (s : Store) (nombre : String) (edad : Int) (cid : Nat)
    (processed_at run_id : String) : Store :=
  match s.personas with
  | none => s
  | some t =>
    if keyPresentB t.rows (nombre, edad, cid) then s
    else
      { s with personas := some ⟨t.hasAudit,
          t.rows ++ [⟨t.nextId, nombre, edad, cid, processed_at, run_id⟩],
          t.nextId + 1⟩ }

/-- One iteration of the insert loop of load_incremental and load_batch:
resolve the city, then insert the person row ignoring duplicates. -/
def loadStep (processed_at run_id : String) (s : Store) (v : Canon) : Store :=
  let r := get_or_create_city_id s v.2.2
  insertPersonOrIgnore r.1 v.1 v.2.1 r.2 processed_at run_id

/-- The whole insert loop over the list of valid records. -/
def insertValidos (s : Store) (processed_at run_id : String)
    (validos : List Canon) : Store :=
  validos.foldl (loadStep processed_at run_id) s

/-! ### Schema management and migration -/

/-- Models ensure_ciudades of scr/etl_incremental_audit.py: CREATE TABLE IF
NOT EXISTS; the ciudades table is always represented, so this is the
identity on the modelled state. -/
def ensure_ciudades (s : Store) : Store := s

/-- Models ensure_etl_runs: CREATE TABLE IF NOT EXISTS on the always
represented etl_runs table. -/
def ensure_etl_runs (s : Store) : Store := s

/-- Models ensure_personas_limpias of scr/etl_incremental_audit.py (lines
158-170): CREATE TABLE IF NOT EXISTS with the current schema; an existing
table of either generation is left untouched. -/
def ensure_personas_limpias (s : Store) : Store :=
  match s.personas with
  | some _ => s
  | none => { s with personas := some ⟨true, [], 1⟩ }

/-- Sentinel audit timestamp used by the migration copy. -/
def defaultProcessedAt : String := "1970-01-01T00:00:00Z"

/-- Sentinel run tag used by the migration copy. -/
def defaultRunId : String := "MIGRATION"

/-- Audit columns added to an old row by the migration copy. -/
def stampRow (r : PersonRow) : PersonRow :=
  { r with processed_at := defaultProcessedAt, run_id := defaultRunId }

/-- Models one row of the INSERT OR IGNORE copy into
personas_limpias_new: the insert is skipped when the UNIQUE key or the
explicitly copied persona_id primary key already occurs. -/
def copyOrIgnore (acc : List PersonRow) (r : PersonRow) : List PersonRow :=
  if acc.any (fun x => x.key == r.key || x.persona_id == r.persona_id) then acc
  else acc ++ [r]

/-- Largest persona_id of a list of rows. -/
def maxPersonaId (rows : List PersonRow) : Nat :=
  rows.foldl (fun m r => max m r.persona_id) 0

/-- Models migrate_personas_limpias_if_needed of
scr/etl_incremental_audit.py (lines 112-155): skip when the table is
absent or already has the audit columns; otherwise rebuild the table by a
duplicate-safe copy that fills the audit columns with sentinel defaults,
then swap the new table in.  The fresh autoincrement counter of the new
table continues after the largest copied rowid. -/
def migrate_personas_limpias_if_needed (s : Store) : Store :=
  match s.personas with
  | none => s
  | some t =>
    if t.hasAudit then s
    else
      let newRows := t.rows.foldl (fun acc r => copyOrIgnore acc (stampRow r)) []
      { s with personas := some ⟨true, newRows, maxPersonaId newRows + 1⟩ }

/-- Models ensure_schema of scr/etl_relational.py (lines 108-127), the
older schema generation: the personas_limpias table is created without the
audit columns when absent; an existing table is left untouched. -/
def ensure_schema_relational (s : Store) : Store :=
  match s.personas with
  | some _ => s
  | none => { s with personas := some ⟨false, [], 1⟩ }

/-- Models ensure_schema of scr/etl_batch.py (lines 85-114): all three
tables with the current schema, CREATE TABLE IF NOT EXISTS. -/
def ensure_schema_b (s : Store) : Store :=
  match s.personas with
  | some _ => s
  | none => { s with personas := some ⟨true, [], 1⟩ }

/-- Whether the etl_runs table already holds the given run_id primary key. -/
def runIdPresentB (s : Store) (rid : String) : Bool :=
  s.etl_runs.any (fun r => r.run_id == rid)

/-! ### The loaders -/

/-- Result of one load_incremental invocation.  ok records whether the call
returned normally; connClosed records whether conn.close() was reached.
The source has no try/finally, so an exception raised by the etl_runs
insert (a duplicate run_id primary key) propagates before the close; the
person inserts were already committed at that point, so store holds them. -/
structure LoadOutcome where
  store : Store
  before : Nat
  after : Nat
  inserted_new : Int
  ignored_duplicates : Int
  ok : Bool
  connClosed : Bool
deriving DecidableEq, Repr

/-- Schema preparation steps of load_incremental (lines 203-210). -/
def prepIncremental (s : Store) : Store :=
  ensure_etl_runs (ensure_personas_limpias
    (migrate_personas_limpias_if_needed (ensure_ciudades s)))

/-- Models load_incremental of scr/etl_incremental_audit.py (lines
193-273).  The three datetime.now calls are nondeterministic inputs: now
feeds the strftime run_id, started_at and processed_at stand for the two
isoformat strings. -/
def load_incremental (s0 : Store) (source_file : String) (validos : List Canon)
    (rejected_count : Nat) (now : Timestamp) (started_at processed_at : String) :
    LoadOutcome :=
  let s4 := prepIncremental s0
  let run_id := incremental_run_id now
  let before := countPersons s4
  let s5 := insertValidos s4 processed_at run_id validos
  let after := countPersons s5
  let inserted_new : Int := (after : Int) - (before : Int)
  let ignored : Int := (validos.length : Int) - inserted_new
  if runIdPresentB s5 run_id then
    ⟨s5, before, after, inserted_new, ignored, false, false⟩
  else
    ⟨{ s5 with etl_runs := s5.etl_runs ++
        [⟨run_id, started_at, source_file, validos.length, rejected_count,
          inserted_new, ignored⟩] },
     before, after, inserted_new, ignored, true, true⟩

/-- Result of one load_batch invocation.  counters is none when the run
aborted before the counters were computed (the INSERT names the audit
columns, so a surviving old-generation table raises OperationalError on the
first row); auditInserted records whether the etl_runs row was written. -/
structure BatchOutcome where
  store : Store
  counters : Option (Int × Int)
  auditInserted : Bool
deriving DecidableEq, Repr

/-- Models load_batch of scr/etl_batch.py (lines 123-168).  now feeds
make_run_id; started_at stands for the isoformat string, which the source
also reuses as processed_at. -/
def load_batch (s0 : Store) (source_file : String) (validos : List Canon)
    (rejected_count : Nat) (now : Timestamp) (started_at : String) : BatchOutcome :=
  let s1 := ensure_schema_b s0
  let run_id := make_run_id now source_file
  match s1.personas with
  | none => ⟨s1, none, false⟩
  | some t =>
    if !t.hasAudit && !validos.isEmpty then
      ⟨s0, none, false⟩
    else
      let before := countPersons s1
      let s2 := insertValidos s1 started_at run_id validos
      let after := countPersons s2
      let inserted_new : Int := (after : Int) - (before : Int)
      let ignored : Int := (validos.length : Int) - inserted_new
      if runIdPresentB s2 run_id then
        ⟨s2, some (inserted_new, ignored), false⟩
      else
        ⟨{ s2 with etl_runs := s2.etl_runs ++
            [⟨run_id, started_at, source_file, validos.length, rejected_count,
              inserted_new, ignored⟩] },
         some (inserted_new, ignored), true⟩

/-- Models load_relational of scr/etl_relational.py (lines 138-208), the
older loader generation: early return on an empty batch, then the same
city-resolving insert loop against the old schema, which has no audit
columns.  When the table on disk is of the newer generation the INSERT
violates the NOT NULL audit columns on the first row and the run aborts
with nothing committed, leaving the store unchanged. -/
def load_relational (s : Store) (validos : List Canon) : Store :=
  if validos.isEmpty then s
  else
    let s1 := ensure_schema_relational s
    match s1.personas with
    | none => s1
    | some t =>
      if t.hasAudit then s
      else insertValidos s1 "" "" validos

/-! ### The csv-variant store of scr/etl_refactor.py and scr/etl_from_csv.py -/

/-- One row of the personas_limpias table of datos_etl.db, whose UNIQUE key
is the (nombre, edad, ciudad) text triple. -/
structure CsvRow where
  id : Nat
  nombre : String
  edad : Int
  ciudad : String
deriving DecidableEq, Repr

/-- The datos_etl.db store: just its personas_limpias table, none when the
table does not exist. -/
structure StoreCsv where
  personas : Option (List CsvRow)
deriving DecidableEq, Repr

/-- Duplicate-safe copy into personas_limpias_new with fresh autoincrement
ids, for the csv-variant migration. -/
def csvCopy (rows : List CsvRow) : List CsvRow :=
  rows.foldl
    (fun acc r =>
      if acc.any (fun x => x.nombre == r.nombre && x.edad == r.edad &&
          x.ciudad == r.ciudad) then acc
      else acc ++ [⟨acc.length + 1, r.nombre, r.edad, r.ciudad⟩])
    []

/-- Models ensure_table_with_unique of scr/etl_refactor.py (lines 49-74)
and scr/etl_from_csv.py (lines 49-67): create personas_limpias_new, copy
from personas_limpias with INSERT OR IGNORE, drop the old table, rename.
The copy reads FROM personas_limpias unconditionally, so when that table
does not exist the statement raises OperationalError. -/
def ensure_table_with_unique (s : StoreCsv) : Except String StoreCsv :=
  match s.personas with
  | none => .error "no such table: personas_limpias"
  | some rows => .ok ⟨some (csvCopy rows)⟩

/-! ### Reachability and well-formedness -/

/-- Store states reachable from a fresh store by the schema-manager,
migration and loader operations of the repository, with arbitrary inputs
and timestamps. -/
inductive Reachable : Store → Prop
  | init : Reachable emptyStore
  | migrate {s} : Reachable s → Reachable (migrate_personas_limpias_if_needed s)
  | ensureNew {s} : Reachable s → Reachable (ensure_personas_limpias s)
  | ensureOld {s} : Reachable s → Reachable (ensure_schema_relational s)
  | ensureBatch {s} : Reachable s → Reachable (ensure_schema_b s)
  | loadInc {s} (sf : String) (v : List Canon) (rc : Nat) (n : Timestamp)
      (a p : String) : Reachable s →
      Reachable (load_incremental s sf v rc n a p).store
  | loadBat {s} (sf : String) (v : List Canon) (rc : Nat) (n : Timestamp)
      (a : String) : Reachable s → Reachable (load_batch s sf v rc n a).store
  | loadRel {s} (v : List Canon) : Reachable s → Reachable (load_relational s v)

/-- Structural constraints the SQLite schema enforces on the store: the
UNIQUE name and distinct autoincrement ids of the ciudades table, ids below
the autoincrement counter, and person rows referencing existing cities. -/
structure StoreWF (s : Store) : Prop where
  namesNodup : (s.ciudades.map Prod.snd).Nodup
  idsNodup : (s.ciudades.map Prod.fst).Nodup
  idsBounded : ∀ p ∈ s.ciudades, p.1 < s.ciudadesNextId
  fk : ∀ r ∈ tableRows s, ∃ p ∈ s.ciudades, p.1 = r.ciudad_id

/-- Whether a canonical record is already represented in the store: its
city resolves and the resulting deduplication key is present. -/
def settledB (s : Store) (v : Canon) : Bool :=
  match resolveCity s v.2.2 with
  | none => false
  | some cid => keyPresentB (tableRows s) (v.1, v.2.1, cid)

/-- Number of person rows that hold the key the canonical record resolves
to, zero when its city does not exist. -/
def matchCount (s : Store) (v : Canon) : Nat :=
  match resolveCity s v.2.2 with
  | none => 0
  | some cid => countKey s (v.1, v.2.1, cid)

/-! ### Lemmas about the transform step -/

@[simp] lemma okPart_ok {α β : Type} (b : β) :
    okPart (Except.ok b : Except α β) = some b := rfl

@[simp] lemma okPart_error {α β : Type} (a : α) :
    okPart (Except.error a : Except α β) = none := rfl

@[simp] lemma errPart_ok {α β : Type} (b : β) :
    errPart (Except.ok b : Except α β) = none := rfl

@[simp] lemma errPart_error {α β : Type} (a : α) :
    errPart (Except.error a : Except α β) = some a := rfl

lemma edad_motivo_ne_norm (s : String) :
    "Edad < " ++ s ≠ "Error al normalizar texto" := by
  intro h
  have h2 : (("Edad < " ++ s).data).take 2
      = ("Error al normalizar texto".data).take 2 :=
    congrArg (fun t => t.data.take 2) h
  rw [String.data_append] at h2
  have h3 : (['E', 'd'] : List Char) = ['E', 'r'] := h2
  exact absurd h3 (by decide)

lemma foldl_partition {α β γ : Type} (f : α → Except γ β) :
    ∀ (l : List α) (acc : List β × List γ),
      l.foldl (partStep f) acc
        = (acc.1 ++ l.filterMap (fun x => okPart (f x)),
           acc.2 ++ l.filterMap (fun x => errPart (f x))) := by
  intro l
  induction l with
  | nil => intro acc; simp
  | cons x rest ih =>
    intro acc
    rw [List.foldl_cons]
    cases h : f x with
    | ok v =>
      simp only [partStep, h, ih, List.filterMap_cons, okPart_ok, errPart_ok,
        List.append_assoc, List.singleton_append]
    | error r =>
      simp only [partStep, h, ih, List.filterMap_cons, okPart_error,
        errPart_error, List.append_assoc, List.singleton_append]

lemma filterMap_parts_length {α β γ : Type} (f : α → Except γ β) :
    ∀ l : List α,
      (l.filterMap (fun x => okPart (f x))).length
        + (l.filterMap (fun x => errPart (f x))).length = l.length := by
  intro l
  induction l with
  | nil => simp
  | cons x rest ih =>
    cases h : f x with
    | ok v =>
      simp only [List.filterMap_cons, h, okPart_ok, errPart_ok,
        List.length_cons]
      omega
    | error r =>
      simp only [List.filterMap_cons, h, okPart_error, errPart_error,
        List.length_cons]
      omega

lemma transform_eq (datos : List Row) (edad_min : Int) :
    transform_with_rejections datos edad_min
      = (datos.filterMap (fun r => okPart (classifyRow edad_min r)),
         datos.filterMap (fun r => errPart (classifyRow edad_min r))) := by
  unfold transform_with_rejections
  rw [foldl_partition (classifyRow edad_min) datos ([], [])]
  simp

lemma transform_batch_eq (datos : List Row) (edad_min : Int) :
    transform_with_rejections_batch datos edad_min
      = (datos.filterMap (fun r => okPart (classifyRowB edad_min r)),
         datos.filterMap (fun r => errPart (classifyRowB edad_min r))) := by
  unfold transform_with_rejections_batch
  rw [foldl_partition (classifyRowB edad_min) datos ([], [])]
  simp

/-- Claim C2: for every input batch and every minimum-age threshold, both
transform_with_rejections variants partition the input: the valid output is
exactly the in-order sublist of rows the per-row classifier accepts, the
rejected output is exactly the in-order sublist it rejects (each row lands
in exactly one, since the classifier is a total function into a sum), and
the two output lengths add up to the input length, so no record is
dropped. -/
theorem c2_transform_partition (datos : List Row) (edad_min : Int) :
    (transform_with_rejections datos edad_min).1
        = datos.filterMap (fun r => okPart (classifyRow edad_min r))
    ∧ (transform_with_rejections datos edad_min).2
        = datos.filterMap (fun r => errPart (classifyRow edad_min r))
    ∧ (transform_with_rejections datos edad_min).1.length
        + (transform_with_rejections datos edad_min).2.length = datos.length
    ∧ (transform_with_rejections_batch datos edad_min).1
        = datos.filterMap (fun r => okPart (classifyRowB edad_min r))
    ∧ (transform_with_rejections_batch datos edad_min).2
        = datos.filterMap (fun r => errPart (classifyRowB edad_min r))
    ∧ (transform_with_rejections_batch datos edad_min).1.length
        + (transform_with_rejections_batch datos edad_min).2.length
          = datos.length := by
  refine ⟨?_, ?_, ?_, ?_, ?_, ?_⟩
  · rw [transform_eq]
  · rw [transform_eq]
  · rw [transform_eq]; exact filterMap_parts_length _ _
  · rw [transform_batch_eq]
  · rw [transform_batch_eq]
  · rw [transform_batch_eq]; exact filterMap_parts_length _ _

/-- Claim C7: the per-row Normalizer of scr/etl_incremental_audit.py and
scr/etl_relational.py evaluates the five stages in source order and
short-circuits at the first failure: a missing required column rejects with
the missing-columns reason regardless of anything else; a None value in a
present column rejects with the null-field reason; the text-normalization
failure branch can never fire on string values; an age string that does
not parse as a base-10 integer rejects with the age-not-integer reason and
the result is independent of the threshold, which is never checked; a
parsed age below the threshold rejects with the threshold reason; and a
record passing every stage is accepted in normalized form. -/
theorem c7_normalizer_stage_order :
    (∀ (row : Row) (m : Int), hasRequiredCols row = false →
        rejMotivo (classifyRow m row) = some "Faltan columnas requeridas")
    ∧ (∀ (row : Row) (m : Int), hasRequiredCols row = true →
        (pyGet row "nombre" none = none ∨ pyGet row "edad" none = none ∨
          pyGet row "ciudad" none = none) →
        rejMotivo (classifyRow m row) = some "Valor None en campo requerido")
    ∧ (∀ (row : Row) (m : Int),
        rejMotivo (classifyRow m row) ≠ some "Error al normalizar texto")
    ∧ (∀ (row : Row) (m m' : Int) (nr er cr : String),
        hasRequiredCols row = true →
        pyGet row "nombre" none = some nr →
        pyGet row "edad" none = some er →
        pyGet row "ciudad" none = some cr →
        pyInt er = none →
        classifyRow m row
            = .error ⟨some nr, some er, some cr, "Edad no convertible a int"⟩
          ∧ classifyRow m row = classifyRow m' row)
    ∧ (∀ (row : Row) (m : Int) (nr er cr : String) (a : Int),
        hasRequiredCols row = true →
        pyGet row "nombre" none = some nr →
        pyGet row "edad" none = some er →
        pyGet row "ciudad" none = some cr →
        pyInt er = some a → a < m →
        rejMotivo (classifyRow m row) = some ("Edad < " ++ toString m))
    ∧ (∀ (row : Row) (m : Int) (nr er cr : String) (a : Int),
        hasRequiredCols row = true →
        pyGet row "nombre" none = some nr →
        pyGet row "edad" none = some er →
        pyGet row "ciudad" none = some cr →
        pyInt er = some a → ¬(a < m) →
        classifyRow m row
          = .ok (pyCapitalize (pyLower (pyStrip nr)), a,
                 pyTitle (pyLower (pyStrip cr)))) := by
  refine ⟨?_, ?_, ?_, ?_, ?_, ?_⟩
  · intro row m h1
    simp [classifyRow, h1, rejMotivo]
  · intro row m h1 h2
    cases e1 : pyGet row "nombre" none <;>
      cases e2 : pyGet row "edad" none <;>
        cases e3 : pyGet row "ciudad" none <;>
          simp_all [classifyRow, rejMotivo]
  · intro row m h
    by_cases h1 : hasRequiredCols row = false
    · simp [classifyRow, h1, rejMotivo] at h
    · rw [Bool.not_eq_false] at h1
      cases e1 : pyGet row "nombre" none with
      | none => simp_all [classifyRow, rejMotivo]
      | some nr =>
        cases e2 : pyGet row "edad" none with
        | none => simp_all [classifyRow, rejMotivo]
        | some er =>
          cases e3 : pyGet row "ciudad" none with
          | none => simp_all [classifyRow, rejMotivo]
          | some cr =>
            cases e4 : pyInt er with
            | none => simp_all [classifyRow, rejMotivo]
            | some a =>
              by_cases h5 : a < m <;>
                simp_all [classifyRow, rejMotivo, edad_motivo_ne_norm]
  · intro row m m' nr er cr h1 e1 e2 e3 e4
    simp [classifyRow, h1, e1, e2, e3, e4]
  · intro row m nr er cr a h1 e1 e2 e3 e4 hlt
    simp [classifyRow, h1, e1, e2, e3, e4, hlt, rejMotivo]
  · intro row m nr er cr a h1 e1 e2 e3 e4 hge
    simp [classifyRow, h1, e1, e2, e3, e4, hge]

/-- Witness for claim C7: the six stage conclusions instantiated at
concrete rows, in particular a row whose age string is "error" is rejected
with the age-not-integer reason for threshold 25 and threshold 99 alike. -/
theorem c7_normalizer_stage_order_witness :
    rejMotivo (classifyRow 25 [("nombre", some "ana")])
        = some "Faltan columnas requeridas"
    ∧ rejMotivo (classifyRow 25
          [("nombre", some "ana"), ("edad", (none : Option String)),
           ("ciudad", some "x")])
        = some "Valor None en campo requerido"
    ∧ rejMotivo (classifyRow 25
          [("nombre", some "ana"), ("edad", some "30"), ("ciudad", some "x")])
        ≠ some "Error al normalizar texto"
    ∧ (classifyRow 25
          [("nombre", some " pedro "), ("edad", some "error"),
           ("ciudad", some "qro")]
        = .error ⟨some " pedro ", some "error", some "qro",
                  "Edad no convertible a int"⟩
      ∧ classifyRow 25
          [("nombre", some " pedro "), ("edad", some "error"),
           ("ciudad", some "qro")]
        = classifyRow 99
          [("nombre", some " pedro "), ("edad", some "error"),
           ("ciudad", some "qro")])
    ∧ rejMotivo (classifyRow 25
          [("nombre", some "naomi"), ("edad", some "23"), ("ciudad", some "sj")])
        = some ("Edad < " ++ toString (25 : Int))
    ∧ classifyRow 25
          [("nombre", some "ana"), ("edad", some "30"), ("ciudad", some "x")]
        = .ok (pyCapitalize (pyLower (pyStrip "ana")), 30,
               pyTitle (pyLower (pyStrip "x"))) :=
  ⟨c7_normalizer_stage_order.1 _ 25 (by decide),
   c7_normalizer_stage_order.2.1 _ 25 (by decide) (Or.inr (Or.inl (by decide))),
   c7_normalizer_stage_order.2.2.1 _ 25,
   c7_normalizer_stage_order.2.2.2.1 _ 25 99 " pedro " "error" "qro"
     (by decide) (by decide) (by decide) (by decide) (by decide),
   c7_normalizer_stage_order.2.2.2.2.1 _ 25 "naomi" "23" "sj" 23
     (by decide) (by decide) (by decide) (by decide) (by decide) (by decide),
   c7_normalizer_stage_order.2.2.2.2.2 _ 25 "ana" "30" "x" 30
     (by decide) (by decide) (by decide) (by decide) (by decide) (by decide)⟩

/-! ### Basic lemmas about the store operations -/

lemma find?_append_some {α : Type} (p : α → Bool) {l : List α} (l' : List α)
    {x : α} (h : l.find? p = some x) : (l ++ l').find? p = some x := by
  induction l with
  | nil => simp [List.find?] at h
  | cons a as ih =>
    rw [List.cons_append]
    cases hp : p a with
    | true =>
      rw [List.find?_cons_of_pos _ hp] at h
      rw [List.find?_cons_of_pos _ hp]
      exact h
    | false =>
      rw [List.find?_cons_of_neg _ (by simp [hp])] at h
      rw [List.find?_cons_of_neg _ (by simp [hp])]
      exact ih h

lemma find?_append_none {α : Type} (p : α → Bool) {l : List α} (l' : List α)
    (h : l.find? p = none) : (l ++ l').find? p = l'.find? p := by
  induction l with
  | nil => simp
  | cons a as ih =>
    rw [List.cons_append]
    cases hp : p a with
    | true => rw [List.find?_cons_of_pos _ hp] at h; exact absurd h (by simp)
    | false =>
      rw [List.find?_cons_of_neg _ (by simp [hp])] at h
      rw [List.find?_cons_of_neg _ (by simp [hp])]
      exact ih h

lemma gocc_found {s : Store} {c : String} {p : Nat × String}
    (h : findCity s c = some p) : get_or_create_city_id s c = (s, p.1) := by
  simp [get_or_create_city_id, h]

lemma gocc_notfound {s : Store} {c : String} (h : findCity s c = none) :
    get_or_create_city_id s c
      = ({ s with
            ciudades := s.ciudades ++ [(s.ciudadesNextId, c)],
            ciudadesNextId := s.ciudadesNextId + 1 }, s.ciudadesNextId) := by
  simp [get_or_create_city_id, h]

lemma gocc_personas (s : Store) (c : String) :
    (get_or_create_city_id s c).1.personas = s.personas := by
  unfold get_or_create_city_id
  cases h : findCity s c <;> rfl

lemma gocc_etl_runs (s : Store) (c : String) :
    (get_or_create_city_id s c).1.etl_runs = s.etl_runs := by
  unfold get_or_create_city_id
  cases h : findCity s c <;> rfl

lemma gocc_findCity_mono {s : Store} {name : String} {p : Nat × String}
    (c : String) (h : findCity s name = some p) :
    findCity (get_or_create_city_id s c).1 name = some p := by
  cases hf : findCity s c with
  | some q => rw [gocc_found hf]; exact h
  | none =>
    rw [gocc_notfound hf]
    unfold findCity at h ⊢
    exact find?_append_some _ _ h

lemma gocc_resolves (s : Store) (c : String) :
    findCity (get_or_create_city_id s c).1 c
      = some ((get_or_create_city_id s c).2, c) := by
  cases hf : findCity s c with
  | some q =>
    rw [gocc_found hf]
    have hq : q.2 = c := by
      have := List.find?_some hf
      simpa using this
    rw [hf]
    cases q
    simp_all
  | none =>
    rw [gocc_notfound hf]
    unfold findCity at hf ⊢
    rw [find?_append_none _ _ hf]
    simp

lemma keyPresentB_append_left {rows : List PersonRow} {k} (l : List PersonRow)
    (h : keyPresentB rows k = true) : keyPresentB (rows ++ l) k = true := by
  unfold keyPresentB at h ⊢
  rw [List.any_append, h]
  rfl

lemma keyPresentB_append_self (rows : List PersonRow) (r : PersonRow) :
    keyPresentB (rows ++ [r]) r.key = true := by
  unfold keyPresentB
  rw [List.any_append]
  simp

lemma ipi_of_present {s : Store} {n : String} {e : Int} {c : Nat}
    {pa rid : String} (h : keyPresentB (tableRows s) (n, e, c) = true) :
    insertPersonOrIgnore s n e c pa rid = s := by
  unfold insertPersonOrIgnore
  cases ht : s.personas with
  | none => rfl
  | some t =>
    have : keyPresentB t.rows (n, e, c) = true := by
      unfold tableRows at h; rw [ht] at h; exact h
    simp [this]

lemma ipi_of_absent {s : Store} {t : PersonTable} {n : String} {e : Int}
    {c : Nat} {pa rid : String} (ht : s.personas = some t)
    (h : keyPresentB t.rows (n, e, c) = false) :
    insertPersonOrIgnore s n e c pa rid
      = { s with personas := some ⟨t.hasAudit,
            t.rows ++ [⟨t.nextId, n, e, c, pa, rid⟩], t.nextId + 1⟩ } := by
  unfold insertPersonOrIgnore
  rw [ht]
  simp [h]

lemma ipi_ciudades (s : Store) (n : String) (e : Int) (c : Nat)
    (pa rid : String) :
    (insertPersonOrIgnore s n e c pa rid).ciudades = s.ciudades := by
  unfold insertPersonOrIgnore
  cases s.personas with
  | none => rfl
  | some t => dsimp only; split <;> rfl

lemma ipi_ciudadesNextId (s : Store) (n : String) (e : Int) (c : Nat)
    (pa rid : String) :
    (insertPersonOrIgnore s n e c pa rid).ciudadesNextId = s.ciudadesNextId := by
  unfold insertPersonOrIgnore
  cases s.personas with
  | none => rfl
  | some t => dsimp only; split <;> rfl

lemma ipi_etl_runs (s : Store) (n : String) (e : Int) (c : Nat)
    (pa rid : String) :
    (insertPersonOrIgnore s n e c pa rid).etl_runs = s.etl_runs := by
  unfold insertPersonOrIgnore
  cases s.personas with
  | none => rfl
  | some t => dsimp only; split <;> rfl

lemma ipi_personas_some {s : Store} {t : PersonTable} (n : String) (e : Int)
    (c : Nat) (pa rid : String) (ht : s.personas = some t) :
    ∃ t', (insertPersonOrIgnore s n e c pa rid).personas = some t'
      ∧ t'.hasAudit = t.hasAudit := by
  unfold insertPersonOrIgnore
  rw [ht]
  dsimp only
  split
  · exact ⟨t, ht, rfl⟩
  · exact ⟨_, rfl, rfl⟩

lemma ipi_keyPresent_mono {s : Store} {k} (n : String) (e : Int) (c : Nat)
    (pa rid : String) (h : keyPresentB (tableRows s) k = true) :
    keyPresentB (tableRows (insertPersonOrIgnore s n e c pa rid)) k = true := by
  unfold insertPersonOrIgnore
  cases ht : s.personas with
  | none => rwa [tableRows, ht] at h ⊢
  | some t =>
    dsimp only
    have hrows : tableRows s = t.rows := by rw [tableRows, ht]
    rw [hrows] at h
    split
    · rwa [tableRows, ht]
    · rw [tableRows]
      exact keyPresentB_append_left _ h

lemma ipi_keyPresent_self {s : Store} {t : PersonTable} (n : String) (e : Int)
    (c : Nat) (pa rid : String) (ht : s.personas = some t) :
    keyPresentB (tableRows (insertPersonOrIgnore s n e c pa rid))
      (n, e, c) = true := by
  cases hk : keyPresentB t.rows (n, e, c) with
  | true =>
    rw [ipi_of_present (by rw [tableRows, ht]; exact hk), tableRows, ht]
    exact hk
  | false =>
    rw [ipi_of_absent ht hk, tableRows]
    dsimp only
    have : (PersonRow.mk t.nextId n e c pa rid).key = (n, e, c) := rfl
    rw [← this]
    exact keyPresentB_append_self _ _

lemma findCity_congr {s s' : Store} (h : s.ciudades = s'.ciudades)
    (name : String) : findCity s name = findCity s' name := by
  unfold findCity
  rw [h]

lemma resolveCity_congr {s s' : Store} (h : s.ciudades = s'.ciudades)
    (name : String) : resolveCity s name = resolveCity s' name := by
  unfold resolveCity
  rw [findCity_congr h]

lemma tableRows_congr {s s' : Store} (h : s.personas = s'.personas) :
    tableRows s = tableRows s' := by
  unfold tableRows
  rw [h]

lemma countPersons_congr {s s' : Store} (h : s.personas = s'.personas) :
    countPersons s = countPersons s' := by
  unfold countPersons
  rw [tableRows_congr h]

lemma settledB_congr {s s' : Store} (h1 : s.ciudades = s'.ciudades)
    (h2 : s.personas = s'.personas) (v : Canon) :
    settledB s v = settledB s' v := by
  unfold settledB
  rw [resolveCity_congr h1, tableRows_congr h2]

lemma resolveCity_some_iff {s : Store} {name : String} {cid : Nat} :
    resolveCity s name = some cid
      ↔ ∃ p, findCity s name = some p ∧ p.1 = cid := by
  unfold resolveCity
  cases findCity s name <;> simp

/-! ### Lemmas about the insert loop -/

lemma ls_etl_runs (pa rid : String) (s : Store) (v : Canon) :
    (loadStep pa rid s v).etl_runs = s.etl_runs := by
  unfold loadStep
  rw [ipi_etl_runs, gocc_etl_runs]

lemma ls_personas_some {s : Store} {t : PersonTable} (pa rid : String)
    (v : Canon) (ht : s.personas = some t) :
    ∃ t', (loadStep pa rid s v).personas = some t'
      ∧ t'.hasAudit = t.hasAudit := by
  unfold loadStep
  exact ipi_personas_some _ _ _ _ _ ((gocc_personas s v.2.2).trans ht)

lemma ls_resolve_mono {s : Store} {name : String} {cid : Nat}
    (pa rid : String) (v : Canon) (h : resolveCity s name = some cid) :
    resolveCity (loadStep pa rid s v) name = some cid := by
  obtain ⟨p, hp, hcid⟩ := resolveCity_some_iff.mp h
  apply resolveCity_some_iff.mpr
  refine ⟨p, ?_, hcid⟩
  unfold loadStep
  rw [findCity_congr (ipi_ciudades _ _ _ _ _ _)]
  exact gocc_findCity_mono _ hp

lemma ls_keyPresent_mono {s : Store} {k} (pa rid : String) (v : Canon)
    (h : keyPresentB (tableRows s) k = true) :
    keyPresentB (tableRows (loadStep pa rid s v)) k = true := by
  unfold loadStep
  apply ipi_keyPresent_mono
  rwa [tableRows_congr (gocc_personas s v.2.2)]

lemma ls_settledB_mono {s : Store} {w : Canon} (pa rid : String) (v : Canon)
    (h : settledB s w = true) : settledB (loadStep pa rid s v) w = true := by
  unfold settledB at h ⊢
  cases hr : resolveCity s w.2.2 with
  | none => rw [hr] at h; exact absurd h (by simp)
  | some cid =>
    rw [hr] at h
    rw [ls_resolve_mono pa rid v hr]
    exact ls_keyPresent_mono pa rid v h

lemma ls_settles {s : Store} {t : PersonTable} (pa rid : String) (v : Canon)
    (ht : s.personas = some t) :
    settledB (loadStep pa rid s v) v = true := by
  unfold settledB
  have hres : findCity (loadStep pa rid s v) v.2.2
      = some ((get_or_create_city_id s v.2.2).2, v.2.2) := by
    unfold loadStep
    rw [findCity_congr (ipi_ciudades _ _ _ _ _ _)]
    exact gocc_resolves s v.2.2
  have : resolveCity (loadStep pa rid s v) v.2.2
      = some (get_or_create_city_id s v.2.2).2 := by
    unfold resolveCity
    rw [hres]
    rfl
  rw [this]
  unfold loadStep
  exact ipi_keyPresent_self _ _ _ _ _ ((gocc_personas s v.2.2).trans ht)

lemma ls_noop {s : Store} {v : Canon} (pa rid : String)
    (h : settledB s v = true) : loadStep pa rid s v = s := by
  unfold settledB at h
  cases hr : resolveCity s v.2.2 with
  | none => rw [hr] at h; exact absurd h (by simp)
  | some cid =>
    rw [hr] at h
    obtain ⟨p, hp, hcid⟩ := resolveCity_some_iff.mp hr
    unfold loadStep
    rw [gocc_found hp]
    dsimp only
    rw [hcid]
    exact ipi_of_present h

lemma iv_nil (s : Store) (pa rid : String) : insertValidos s pa rid [] = s := rfl

lemma iv_cons (s : Store) (pa rid : String) (v : Canon) (vs : List Canon) :
    insertValidos s pa rid (v :: vs)
      = insertValidos (loadStep pa rid s v) pa rid vs := rfl

lemma iv_personas_some (pa rid : String) (vs : List Canon) :
    ∀ {s : Store} {t : PersonTable}, s.personas = some t →
      ∃ t', (insertValidos s pa rid vs).personas = some t'
        ∧ t'.hasAudit = t.hasAudit := by
  induction vs with
  | nil => intro s t ht; exact ⟨t, ht, rfl⟩
  | cons v vs ih =>
    intro s t ht
    rw [iv_cons]
    obtain ⟨t1, ht1, ha1⟩ := ls_personas_some pa rid v ht
    obtain ⟨t2, ht2, ha2⟩ := ih ht1
    exact ⟨t2, ht2, ha2.trans ha1⟩

lemma iv_etl_runs (pa rid : String) (vs : List Canon) :
    ∀ s : Store, (insertValidos s pa rid vs).etl_runs = s.etl_runs := by
  induction vs with
  | nil => intro s; rfl
  | cons v vs ih =>
    intro s
    rw [iv_cons, ih, ls_etl_runs]

lemma iv_settledB_mono {w : Canon} (pa rid : String) (vs : List Canon) :
    ∀ {s : Store}, settledB s w = true →
      settledB (insertValidos s pa rid vs) w = true := by
  induction vs with
  | nil => intro s h; exact h
  | cons v vs ih =>
    intro s h
    rw [iv_cons]
    exact ih (ls_settledB_mono pa rid v h)

lemma iv_settles (pa rid : String) (vs : List Canon) :
    ∀ {s : Store} {t : PersonTable}, s.personas = some t →
      ∀ w ∈ vs, settledB (insertValidos s pa rid vs) w = true := by
  induction vs with
  | nil => intro s t _ w hw; exact absurd hw (List.not_mem_nil w)
  | cons v vs ih =>
    intro s t ht w hw
    rw [iv_cons]
    rcases List.mem_cons.mp hw with hw | hw
    · subst hw
      exact iv_settledB_mono pa rid vs (ls_settles pa rid w ht)
    · obtain ⟨t1, ht1, _⟩ := ls_personas_some pa rid v ht
      exact ih ht1 w hw

lemma iv_noop (pa rid : String) (vs : List Canon) :
    ∀ {s : Store}, (∀ w ∈ vs, settledB s w = true) →
      insertValidos s pa rid vs = s := by
  induction vs with
  | nil => intro s _; rfl
  | cons v vs ih =>
    intro s h
    rw [iv_cons, ls_noop pa rid (h v (List.mem_cons_self v vs)), ih]
    intro w hw
    exact h w (List.mem_cons_of_mem v hw)

/-! ### Lemmas about schema preparation -/

lemma migrate_of_none {s : Store} (h : s.personas = none) :
    migrate_personas_limpias_if_needed s = s := by
  simp [migrate_personas_limpias_if_needed, h]

lemma migrate_of_audit {s : Store} {t : PersonTable} (h : s.personas = some t)
    (ha : t.hasAudit = true) : migrate_personas_limpias_if_needed s = s := by
  simp [migrate_personas_limpias_if_needed, h, ha]

lemma migrate_of_old {s : Store} {t : PersonTable} (h : s.personas = some t)
    (ha : t.hasAudit = false) :
    migrate_personas_limpias_if_needed s
      = { s with personas := some ⟨true,
            t.rows.foldl (fun acc r => copyOrIgnore acc (stampRow r)) [],
            maxPersonaId
              (t.rows.foldl (fun acc r => copyOrIgnore acc (stampRow r)) [])
              + 1⟩ } := by
  simp [migrate_personas_limpias_if_needed, h, ha]

lemma ensure_pl_of_some {s : Store} {t : PersonTable}
    (h : s.personas = some t) : ensure_personas_limpias s = s := by
  simp [ensure_personas_limpias, h]

lemma ensure_pl_of_none {s : Store} (h : s.personas = none) :
    ensure_personas_limpias s
      = { s with personas := some ⟨true, [], 1⟩ } := by
  simp [ensure_personas_limpias, h]

lemma prep_personas_audit (s : Store) :
    ∃ t, (prepIncremental s).personas = some t ∧ t.hasAudit = true := by
  unfold prepIncremental ensure_etl_runs ensure_ciudades
  cases hp : s.personas with
  | none =>
    rw [migrate_of_none hp, ensure_pl_of_none hp]
    exact ⟨_, rfl, rfl⟩
  | some t =>
    cases ha : t.hasAudit with
    | true =>
      rw [migrate_of_audit hp ha, ensure_pl_of_some hp]
      exact ⟨t, hp, ha⟩
    | false =>
      rw [migrate_of_old hp ha, ensure_pl_of_some rfl]
      exact ⟨_, rfl, rfl⟩

lemma prep_of_current {s : Store} {t : PersonTable} (h : s.personas = some t)
    (ha : t.hasAudit = true) : prepIncremental s = s := by
  unfold prepIncremental ensure_etl_runs ensure_ciudades
  rw [migrate_of_audit h ha, ensure_pl_of_some h]

lemma ensure_b_of_some {s : Store} {t : PersonTable}
    (h : s.personas = some t) : ensure_schema_b s = s := by
  simp [ensure_schema_b, h]

lemma ensure_b_some (s : Store) :
    ∃ t, (ensure_schema_b s).personas = some t := by
  unfold ensure_schema_b
  cases h : s.personas with
  | none => exact ⟨_, rfl⟩
  | some t => exact ⟨t, h⟩

/-! ### Projection lemmas for load_incremental -/

lemma li_store_personas (s : Store) (sf : String) (v : List Canon) (rc : Nat)
    (n : Timestamp) (a p : String) :
    (load_incremental s sf v rc n a p).store.personas
      = (insertValidos (prepIncremental s) p (incremental_run_id n) v).personas := by
  unfold load_incremental
  dsimp only
  split <;> rfl

lemma li_store_ciudades (s : Store) (sf : String) (v : List Canon) (rc : Nat)
    (n : Timestamp) (a p : String) :
    (load_incremental s sf v rc n a p).store.ciudades
      = (insertValidos (prepIncremental s) p (incremental_run_id n) v).ciudades := by
  unfold load_incremental
  dsimp only
  split <;> rfl

lemma li_inserted (s : Store) (sf : String) (v : List Canon) (rc : Nat)
    (n : Timestamp) (a p : String) :
    (load_incremental s sf v rc n a p).inserted_new
      = (countPersons (insertValidos (prepIncremental s) p
            (incremental_run_id n) v) : Int)
        - (countPersons (prepIncremental s) : Int) := by
  unfold load_incremental
  dsimp only
  split <;> rfl

lemma li_ignored (s : Store) (sf : String) (v : List Canon) (rc : Nat)
    (n : Timestamp) (a p : String) :
    (load_incremental s sf v rc n a p).ignored_duplicates
      = (v.length : Int) - (load_incremental s sf v rc n a p).inserted_new := by
  rw [li_inserted]
  unfold load_incremental
  dsimp only
  split <;> rfl

/-! ### Projection lemmas for load_batch -/

lemma lb_abort {s : Store} {t : PersonTable} {v : List Canon}
    (sf : String) (rc : Nat) (n : Timestamp) (a : String)
    (ht : (ensure_schema_b s).personas = some t)
    (hc : (!t.hasAudit && !v.isEmpty) = true) :
    load_batch s sf v rc n a = ⟨s, none, false⟩ := by
  unfold load_batch
  dsimp only
  rw [ht]
  simp only [hc, if_true]

lemma lb_counters {s : Store} {t : PersonTable} {v : List Canon}
    (sf : String) (rc : Nat) (n : Timestamp) (a : String)
    (ht : (ensure_schema_b s).personas = some t)
    (hc : (!t.hasAudit && !v.isEmpty) = false) :
    (load_batch s sf v rc n a).counters
      = some ((countPersons (insertValidos (ensure_schema_b s) a
            (make_run_id n sf) v) : Int)
          - (countPersons (ensure_schema_b s) : Int),
          (v.length : Int)
          - ((countPersons (insertValidos (ensure_schema_b s) a
                (make_run_id n sf) v) : Int)
            - (countPersons (ensure_schema_b s) : Int))) := by
  unfold load_batch
  dsimp only
  rw [ht]
  simp only [hc, Bool.false_eq_true, if_false]
  split <;> rfl

lemma lb_store_personas {s : Store} {t : PersonTable} {v : List Canon}
    (sf : String) (rc : Nat) (n : Timestamp) (a : String)
    (ht : (ensure_schema_b s).personas = some t)
    (hc : (!t.hasAudit && !v.isEmpty) = false) :
    (load_batch s sf v rc n a).store.personas
      = (insertValidos (ensure_schema_b s) a (make_run_id n sf) v).personas := by
  unfold load_batch
  dsimp only
  rw [ht]
  simp only [hc, Bool.false_eq_true, if_false]
  split <;> rfl

lemma lb_store_ciudades {s : Store} {t : PersonTable} {v : List Canon}
    (sf : String) (rc : Nat) (n : Timestamp) (a : String)
    (ht : (ensure_schema_b s).personas = some t)
    (hc : (!t.hasAudit && !v.isEmpty) = false) :
    (load_batch s sf v rc n a).store.ciudades
      = (insertValidos (ensure_schema_b s) a (make_run_id n sf) v).ciudades := by
  unfold load_batch
  dsimp only
  rw [ht]
  simp only [hc, Bool.false_eq_true, if_false]
  split <;> rfl

/-- Claim C1: loading the identical valid batch a second time is
idempotent.  For load_incremental this holds for every starting store with
no hypotheses: the second run reports inserted_new = 0 and
ignored_duplicates = batch length, and the Person-row count is unchanged.
For load_batch the same holds whenever the first run completed far enough
to report counters (it aborts only when a surviving old-schema table meets
a nonempty batch). -/
theorem c1_load_twice_idempotent (s : Store) (sf : String)
    (validos : List Canon) (rc rc2 : Nat) (n1 n2 : Timestamp)
    (a1 p1 a2 p2 : String) :
    ((load_incremental (load_incremental s sf validos rc n1 a1 p1).store
        sf validos rc2 n2 a2 p2).inserted_new = 0
      ∧ (load_incremental (load_incremental s sf validos rc n1 a1 p1).store
          sf validos rc2 n2 a2 p2).ignored_duplicates = (validos.length : Int)
      ∧ countPersons (load_incremental
            (load_incremental s sf validos rc n1 a1 p1).store
            sf validos rc2 n2 a2 p2).store
          = countPersons (load_incremental s sf validos rc n1 a1 p1).store)
    ∧ ((load_batch s sf validos rc n1 a1).counters.isSome = true →
        (load_batch (load_batch s sf validos rc n1 a1).store
            sf validos rc2 n2 a2).counters
          = some (0, (validos.length : Int))
        ∧ countPersons (load_batch (load_batch s sf validos rc n1 a1).store
              sf validos rc2 n2 a2).store
            = countPersons (load_batch s sf validos rc n1 a1).store) := by
  constructor
  · obtain ⟨t4, ht4, ha4⟩ := prep_personas_audit s
    obtain ⟨t5, ht5, ha5⟩ :=
      iv_personas_some p1 (incremental_run_id n1) validos ht4
    have hpers := li_store_personas s sf validos rc n1 a1 p1
    have hciud := li_store_ciudades s sf validos rc n1 a1 p1
    have ho1p : (load_incremental s sf validos rc n1 a1 p1).store.personas
        = some t5 := hpers.trans ht5
    have hprep2 :
        prepIncremental (load_incremental s sf validos rc n1 a1 p1).store
          = (load_incremental s sf validos rc n1 a1 p1).store :=
      prep_of_current ho1p (ha5.trans ha4)
    have hsettled : ∀ w ∈ validos,
        settledB (load_incremental s sf validos rc n1 a1 p1).store w = true := by
      intro w hw
      rw [settledB_congr hciud hpers]
      exact iv_settles p1 (incremental_run_id n1) validos ht4 w hw
    have hnoop :
        insertValidos (load_incremental s sf validos rc n1 a1 p1).store p2
            (incremental_run_id n2) validos
          = (load_incremental s sf validos rc n1 a1 p1).store :=
      iv_noop _ _ _ hsettled
    have hins :
        (load_incremental (load_incremental s sf validos rc n1 a1 p1).store
            sf validos rc2 n2 a2 p2).inserted_new = 0 := by
      rw [li_inserted, hprep2, hnoop]
      omega
    refine ⟨hins, ?_, ?_⟩
    · rw [li_ignored, hins]
      omega
    · rw [countPersons_congr (li_store_personas _ sf validos rc2 n2 a2 p2),
        hprep2, hnoop]
  · intro hb
    obtain ⟨tb, htb⟩ := ensure_b_some s
    cases hcond : (!tb.hasAudit && !validos.isEmpty) with
    | true =>
      rw [lb_abort sf rc n1 a1 htb hcond] at hb
      simp at hb
    | false =>
      obtain ⟨t2, ht2, ha2⟩ :=
        iv_personas_some a1 (make_run_id n1 sf) validos htb
      have hb1p := lb_store_personas sf rc n1 a1 htb hcond
      have hb1c := lb_store_ciudades sf rc n1 a1 htb hcond
      have ho1p : (load_batch s sf validos rc n1 a1).store.personas
          = some t2 := hb1p.trans ht2
      have hens2 :
          ensure_schema_b (load_batch s sf validos rc n1 a1).store
            = (load_batch s sf validos rc n1 a1).store :=
        ensure_b_of_some ho1p
      have htb2 :
          (ensure_schema_b (load_batch s sf validos rc n1 a1).store).personas
            = some t2 := by rw [hens2]; exact ho1p
      have hcond2 : (!t2.hasAudit && !validos.isEmpty) = false := by
        rw [ha2]; exact hcond
      have hsettled : ∀ w ∈ validos,
          settledB (load_batch s sf validos rc n1 a1).store w = true := by
        intro w hw
        rw [settledB_congr hb1c hb1p]
        exact iv_settles a1 (make_run_id n1 sf) validos htb w hw
      have hnoop :
          insertValidos (load_batch s sf validos rc n1 a1).store a2
              (make_run_id n2 sf) validos
            = (load_batch s sf validos rc n1 a1).store :=
        iv_noop _ _ _ hsettled
      constructor
      · rw [lb_counters sf rc2 n2 a2 htb2 hcond2, hens2, hnoop]
        simp
      · rw [countPersons_congr (lb_store_personas sf rc2 n2 a2 htb2 hcond2),
          hens2, hnoop]

/-- Witness for claim C1: a concrete one-record batch loaded twice into a
fresh store, through load_incremental and through load_batch. -/
theorem c1_load_twice_idempotent_witness :
    ((load_incremental (load_incremental emptyStore "f.csv"
          [("Ana", 30, "Lima")] 0 ⟨2025, 1, 2, 3, 4, 5, 0⟩ "s1" "t1").store
        "f.csv" [("Ana", 30, "Lima")] 0 ⟨2025, 1, 2, 3, 4, 6, 0⟩ "s2"
        "t2").inserted_new = 0
      ∧ (load_incremental (load_incremental emptyStore "f.csv"
            [("Ana", 30, "Lima")] 0 ⟨2025, 1, 2, 3, 4, 5, 0⟩ "s1" "t1").store
          "f.csv" [("Ana", 30, "Lima")] 0 ⟨2025, 1, 2, 3, 4, 6, 0⟩ "s2"
          "t2").ignored_duplicates
        = (([("Ana", 30, "Lima")] : List Canon).length : Int)
      ∧ countPersons (load_incremental (load_incremental emptyStore "f.csv"
            [("Ana", 30, "Lima")] 0 ⟨2025, 1, 2, 3, 4, 5, 0⟩ "s1" "t1").store
          "f.csv" [("Ana", 30, "Lima")] 0 ⟨2025, 1, 2, 3, 4, 6, 0⟩ "s2"
          "t2").store
        = countPersons (load_incremental emptyStore "f.csv"
            [("Ana", 30, "Lima")] 0 ⟨2025, 1, 2, 3, 4, 5, 0⟩ "s1" "t1").store)
    ∧ ((load_batch (load_batch emptyStore "f.csv" [("Ana", 30, "Lima")] 0
          ⟨2025, 1, 2, 3, 4, 5, 0⟩ "s1").store "f.csv" [("Ana", 30, "Lima")] 0
          ⟨2025, 1, 2, 3, 4, 6, 0⟩ "s2").counters
        = some (0, (([("Ana", 30, "Lima")] : List Canon).length : Int))
      ∧ countPersons (load_batch (load_batch emptyStore "f.csv"
            [("Ana", 30, "Lima")] 0 ⟨2025, 1, 2, 3, 4, 5, 0⟩ "s1").store
          "f.csv" [("Ana", 30, "Lima")] 0 ⟨2025, 1, 2, 3, 4, 6, 0⟩
          "s2").store
        = countPersons (load_batch emptyStore "f.csv" [("Ana", 30, "Lima")] 0
            ⟨2025, 1, 2, 3, 4, 5, 0⟩ "s1").store) := by
  have h := c1_load_twice_idempotent emptyStore "f.csv" [("Ana", 30, "Lima")]
    0 0 ⟨2025, 1, 2, 3, 4, 5, 0⟩ ⟨2025, 1, 2, 3, 4, 6, 0⟩ "s1" "t1" "s2" "t2"
  exact ⟨h.1, h.2 (by decide)⟩

/-! ### Lemmas about the migration copy -/

@[simp] lemma stampRow_key (r : PersonRow) : (stampRow r).key = r.key := rfl

@[simp] lemma stampRow_id (r : PersonRow) :
    (stampRow r).persona_id = r.persona_id := rfl

lemma copy_exact :
    ∀ (rest acc : List PersonRow),
      (∀ r ∈ rest, ∀ x ∈ acc, x.key ≠ r.key ∧ x.persona_id ≠ r.persona_id) →
      (rest.map PersonRow.key).Nodup →
      (rest.map PersonRow.persona_id).Nodup →
      rest.foldl (fun acc r => copyOrIgnore acc (stampRow r)) acc
        = acc ++ rest.map stampRow := by
  intro rest
  induction rest with
  | nil => intro acc _ _ _; simp
  | cons r rest ih =>
    intro acc hdis hk hi
    rw [List.foldl_cons]
    have hany : (acc.any (fun x => x.key == (stampRow r).key
        || x.persona_id == (stampRow r).persona_id)) = false := by
      rw [List.any_eq_false]
      intro x hx
      obtain ⟨h1, h2⟩ := hdis r (List.mem_cons_self r rest) x hx
      simp [stampRow_key, stampRow_id, h1, h2]
    have hstep : copyOrIgnore acc (stampRow r) = acc ++ [stampRow r] := by
      unfold copyOrIgnore
      rw [hany]
      rfl
    rw [hstep]
    rw [List.map_cons] at hk hi
    have hk' := hk.of_cons
    have hi' := hi.of_cons
    have hknot := (List.nodup_cons.mp hk).1
    have hinot := (List.nodup_cons.mp hi).1
    rw [ih (acc ++ [stampRow r]) ?_ hk' hi']
    · simp [List.append_assoc]
    · intro r' hr' x hx
      rcases List.mem_append.mp hx with hx | hx
      · exact hdis r' (List.mem_cons_of_mem r hr') x hx
      · have hxr : x = stampRow r := by simpa using hx
        subst hxr
        constructor
        · rw [stampRow_key]
          intro hkey
          exact hknot (hkey ▸ List.mem_map_of_mem PersonRow.key hr')
        · rw [stampRow_id]
          intro hid
          exact hinot (hid ▸ List.mem_map_of_mem PersonRow.persona_id hr')

lemma migrate_old_rows {s : Store} {t : PersonTable} (h : s.personas = some t)
    (ha : t.hasAudit = false) (hk : (t.rows.map PersonRow.key).Nodup)
    (hi : (t.rows.map PersonRow.persona_id).Nodup) :
    (migrate_personas_limpias_if_needed s).personas
      = some ⟨true, t.rows.map stampRow,
          maxPersonaId (t.rows.map stampRow) + 1⟩ := by
  rw [migrate_of_old h ha]
  dsimp only
  rw [copy_exact t.rows [] (by simp) hk hi]
  rw [List.nil_append]

/-- Claim C4: on a store whose Person table is in the old schema (no audit
columns), running the migration twice changes nothing the second time (in
particular adds no rows), and every original row is retrievable after
migration with processed_at equal to the epoch sentinel and run_id equal to
the literal MIGRATION tag.  The Nodup hypotheses are the UNIQUE key and the
primary key constraints the old schema itself enforces on its rows. -/
theorem c4_migration_twice_safe (s : Store) (t : PersonTable)
    (h : s.personas = some t) (ha : t.hasAudit = false)
    (hk : (t.rows.map PersonRow.key).Nodup)
    (hi : (t.rows.map PersonRow.persona_id).Nodup) :
    migrate_personas_limpias_if_needed (migrate_personas_limpias_if_needed s)
        = migrate_personas_limpias_if_needed s
    ∧ ∃ t', (migrate_personas_limpias_if_needed s).personas = some t'
        ∧ ∀ r ∈ t.rows, ∃ r' ∈ t'.rows,
            r'.persona_id = r.persona_id ∧ r'.nombre = r.nombre
            ∧ r'.edad = r.edad ∧ r'.ciudad_id = r.ciudad_id
            ∧ r'.processed_at = "1970-01-01T00:00:00Z"
            ∧ r'.run_id = "MIGRATION" := by
  have hm := migrate_old_rows h ha hk hi
  constructor
  · exact migrate_of_audit hm rfl
  · refine ⟨_, hm, ?_⟩
    intro r hr
    exact ⟨stampRow r, List.mem_map_of_mem stampRow hr, rfl, rfl, rfl, rfl,
      rfl, rfl⟩

/-- Witness for claim C4: a concrete two-row old-schema store migrated
twice. -/
theorem c4_migration_twice_safe_witness :
    migrate_personas_limpias_if_needed (migrate_personas_limpias_if_needed
        ⟨[(1, "Lima")], 2,
          some ⟨false, [⟨1, "Ana", 30, 1, "", ""⟩, ⟨2, "Bo", 40, 1, "", ""⟩],
            3⟩, []⟩)
      = migrate_personas_limpias_if_needed
          ⟨[(1, "Lima")], 2,
            some ⟨false, [⟨1, "Ana", 30, 1, "", ""⟩, ⟨2, "Bo", 40, 1, "", ""⟩],
              3⟩, []⟩
    ∧ ∃ t', (migrate_personas_limpias_if_needed
          ⟨[(1, "Lima")], 2,
            some ⟨false, [⟨1, "Ana", 30, 1, "", ""⟩, ⟨2, "Bo", 40, 1, "", ""⟩],
              3⟩, []⟩).personas = some t'
        ∧ ∀ r ∈ [(⟨1, "Ana", 30, 1, "", ""⟩ : PersonRow),
              ⟨2, "Bo", 40, 1, "", ""⟩], ∃ r' ∈ t'.rows,
            r'.persona_id = r.persona_id ∧ r'.nombre = r.nombre
            ∧ r'.edad = r.edad ∧ r'.ciudad_id = r.ciudad_id
            ∧ r'.processed_at = "1970-01-01T00:00:00Z"
            ∧ r'.run_id = "MIGRATION" :=
  c4_migration_twice_safe
    ⟨[(1, "Lima")], 2,
      some ⟨false, [⟨1, "Ana", 30, 1, "", ""⟩, ⟨2, "Bo", 40, 1, "", ""⟩], 3⟩,
      []⟩
    ⟨false, [⟨1, "Ana", 30, 1, "", ""⟩, ⟨2, "Bo", 40, 1, "", ""⟩], 3⟩
    rfl rfl (by decide) (by decide)

/-- Claim C5: migration preserves the old table contents exactly: the new
rows are precisely the old rows with the sentinel audit values added, in
order, so the multiset of (nombre, edad, ciudad_id) triples is neither
shrunk nor grown.  The Nodup hypotheses are the constraints the old schema
itself enforces. -/
theorem c5_migration_preserves_rows (s : Store) (t : PersonTable)
    (h : s.personas = some t) (ha : t.hasAudit = false)
    (hk : (t.rows.map PersonRow.key).Nodup)
    (hi : (t.rows.map PersonRow.persona_id).Nodup) :
    ∃ t', (migrate_personas_limpias_if_needed s).personas = some t'
      ∧ t'.rows = t.rows.map stampRow
      ∧ t'.rows.map PersonRow.key = t.rows.map PersonRow.key := by
  refine ⟨_, migrate_old_rows h ha hk hi, rfl, ?_⟩
  rw [List.map_map]
  rfl

/-- Witness for claim C5: the exact-copy conclusion at a concrete two-row
old-schema store. -/
theorem c5_migration_preserves_rows_witness :
    ∃ t', (migrate_personas_limpias_if_needed
        ⟨[(1, "X")], 2,
          some ⟨false, [⟨1, "Carla", 28, 1, "", ""⟩, ⟨2, "Dan", 33, 1, "", ""⟩],
            3⟩, []⟩).personas = some t'
      ∧ t'.rows = [(⟨1, "Carla", 28, 1, "", ""⟩ : PersonRow),
            ⟨2, "Dan", 33, 1, "", ""⟩].map stampRow
      ∧ t'.rows.map PersonRow.key
          = [(⟨1, "Carla", 28, 1, "", ""⟩ : PersonRow),
              ⟨2, "Dan", 33, 1, "", ""⟩].map PersonRow.key :=
  c5_migration_preserves_rows
    ⟨[(1, "X")], 2,
      some ⟨false, [⟨1, "Carla", 28, 1, "", ""⟩, ⟨2, "Dan", 33, 1, "", ""⟩],
        3⟩, []⟩
    ⟨false, [⟨1, "Carla", 28, 1, "", ""⟩, ⟨2, "Dan", 33, 1, "", ""⟩], 3⟩
    rfl rfl (by decide) (by decide)

/-! ### Lemmas about run-identifier formatting -/

/-- Decode a zero-padded decimal digit run back to a number. -/
def unpadAux (acc : Nat) : List Char → Nat
  | [] => acc
  | c :: cs => unpadAux (10 * acc + (c.toNat - 48)) cs

lemma unpadAux_append (l1 l2 : List Char) :
    ∀ acc, unpadAux acc (l1 ++ l2) = unpadAux (unpadAux acc l1) l2 := by
  induction l1 with
  | nil => intro acc; rfl
  | cons c cs ih => intro acc; rw [List.cons_append]; exact ih _

lemma digitChar_toNat {d : Nat} (h : d < 10) :
    (Nat.digitChar d).toNat = 48 + d := by
  interval_cases d <;> rfl

lemma unpad_padNum : ∀ (w acc n : Nat), n < 10 ^ w →
    unpadAux acc (padNum w n) = acc * 10 ^ w + n := by
  intro w
  induction w with
  | zero =>
    intro acc n hn
    have hz : n = 0 := by omega
    subst hz
    show acc = acc * 10 ^ 0 + 0
    rw [pow_zero]
    omega
  | succ w ih =>
    intro acc n hn
    have hdiv : n / 10 < 10 ^ w := by
      rw [Nat.div_lt_iff_lt_mul (by norm_num)]
      calc n < 10 ^ (w + 1) := hn
        _ = 10 ^ w * 10 := by rw [pow_succ]
    rw [padNum, unpadAux_append, ih acc (n / 10) hdiv]
    show 10 * (acc * 10 ^ w + n / 10) + ((Nat.digitChar (n % 10)).toNat - 48)
        = acc * 10 ^ (w + 1) + n
    rw [digitChar_toNat (Nat.mod_lt n (by norm_num)), pow_succ, ← mul_assoc]
    omega

lemma padNum_inj {w a b : Nat} (ha : a < 10 ^ w) (hb : b < 10 ^ w)
    (h : padNum w a = padNum w b) : a = b := by
  have h2 := congrArg (unpadAux 0) h
  rw [unpad_padNum w 0 a ha, unpad_padNum w 0 b hb] at h2
  omega

/-- Counterexample to claim C6: the run identifier built by
load_incremental (strftime with pattern ending in seconds) collides for two
distinct instants inside the same wall-clock second, because it has no
microsecond component and no source suffix.  Claim C6 asserts every run
identifier produced by the auditor is unique across such runs; the
incremental auditor's identifier is not. -/
theorem c6_incremental_run_id_collision :
    incremental_run_id ⟨2025, 1, 2, 3, 4, 5, 0⟩
        = incremental_run_id ⟨2025, 1, 2, 3, 4, 5, 999999⟩
    ∧ (⟨2025, 1, 2, 3, 4, 5, 0⟩ : Timestamp)
        ≠ (⟨2025, 1, 2, 3, 4, 5, 999999⟩ : Timestamp) :=
  ⟨rfl, by decide⟩

/-- Claim C6 as amended: the identifier built by make_run_id of
scr/etl_batch.py is unique across two runs inside the same wall-clock
second against the same source identifier, because the strftime pattern
carries the microsecond field; load_incremental's second-resolution
identifier does not have this property. -/
theorem c6_make_run_id_unique_same_second (t1 t2 : Timestamp) (src : String)
    (hy : t1.year = t2.year) (hmo : t1.month = t2.month)
    (hd : t1.day = t2.day) (hh : t1.hour = t2.hour)
    (hmi : t1.minute = t2.minute) (hs : t1.second = t2.second)
    (hm1 : t1.micro < 1000000) (hm2 : t2.micro < 1000000)
    (hne : t1.micro ≠ t2.micro) :
    make_run_id t1 src ≠ make_run_id t2 src := by
  intro h
  unfold make_run_id at h
  have hl := congrArg String.data h
  simp only [String.data] at hl
  rw [hy, hmo, hd, hh, hmi, hs] at hl
  simp only [List.append_assoc] at hl
  have h1 := List.append_cancel_left hl
  have h2 := List.append_cancel_left h1
  have h3 := List.append_cancel_left h2
  have h4 := List.append_cancel_left h3
  have h5 := List.append_cancel_left h4
  have h6 := List.append_cancel_left h5
  have h7 := List.append_cancel_left h6
  have h8 := List.append_cancel_right h7
  exact hne (padNum_inj hm1 hm2 h8)

/-- Witness for claim C6 as amended: two batch runs one microsecond apart
in the same second, against the same file, get distinct identifiers. -/
theorem c6_make_run_id_unique_same_second_witness :
    make_run_id ⟨2025, 1, 2, 3, 4, 5, 0⟩ "a.csv"
      ≠ make_run_id ⟨2025, 1, 2, 3, 4, 5, 1⟩ "a.csv" :=
  c6_make_run_id_unique_same_second ⟨2025, 1, 2, 3, 4, 5, 0⟩
    ⟨2025, 1, 2, 3, 4, 5, 1⟩ "a.csv" rfl rfl rfl rfl rfl rfl
    (by norm_num) (by norm_num) (by decide)

/-! ### Lemmas about the audit-insert failure path -/

lemma migrate_etl_runs (s : Store) :
    (migrate_personas_limpias_if_needed s).etl_runs = s.etl_runs := by
  unfold migrate_personas_limpias_if_needed
  cases s.personas with
  | none => rfl
  | some t => dsimp only; split <;> rfl

lemma ensure_pl_etl_runs (s : Store) :
    (ensure_personas_limpias s).etl_runs = s.etl_runs := by
  unfold ensure_personas_limpias
  cases s.personas <;> rfl

lemma prep_etl_runs (s : Store) :
    (prepIncremental s).etl_runs = s.etl_runs := by
  unfold prepIncremental ensure_etl_runs ensure_ciudades
  rw [ensure_pl_etl_runs, migrate_etl_runs]

lemma runIdPresentB_congr {s s' : Store} (h : s.etl_runs = s'.etl_runs)
    (rid : String) : runIdPresentB s rid = runIdPresentB s' rid := by
  unfold runIdPresentB
  rw [h]

/-- Counterexample to claim C9: an invocation of the load step whose
connection is neither committed-and-closed nor closed at all before the
exception propagates.  Two load_incremental runs inside the same wall-clock
second give the second run a run_id already present as a primary key in
etl_runs; the audit INSERT raises, and because the source has no try/finally
or context manager, conn.close() on the final line is never reached. -/
theorem c9_connection_not_closed_on_error :
    (load_incremental (load_incremental emptyStore "f.csv" [] 0
        ⟨2025, 1, 2, 3, 4, 5, 0⟩ "s1" "p1").store "f.csv" [] 0
        ⟨2025, 1, 2, 3, 4, 5, 500000⟩ "s2" "p2").ok = false
    ∧ (load_incremental (load_incremental emptyStore "f.csv" [] 0
        ⟨2025, 1, 2, 3, 4, 5, 0⟩ "s1" "p1").store "f.csv" [] 0
        ⟨2025, 1, 2, 3, 4, 5, 500000⟩ "s2" "p2").connClosed = false := by
  decide

/-- Claim C9 as amended: load_incremental commits and closes its connection
exactly on the successful path; the call succeeds, and hence closes the
connection, precisely when the run identifier derived from the start time
is not already recorded in etl_runs.  On the failure path (a duplicate
run_id primary key) the exception propagates with the connection left
open. -/
theorem c9_amended_connection_close (s : Store) (sf : String)
    (v : List Canon) (rc : Nat) (n : Timestamp) (a p : String) :
    ((load_incremental s sf v rc n a p).connClosed = true
      ↔ (load_incremental s sf v rc n a p).ok = true)
    ∧ ((load_incremental s sf v rc n a p).ok = true
      ↔ runIdPresentB s (incremental_run_id n) = false) := by
  have hrid : runIdPresentB (insertValidos (prepIncremental s) p
      (incremental_run_id n) v) (incremental_run_id n)
        = runIdPresentB s (incremental_run_id n) := by
    rw [runIdPresentB_congr ((iv_etl_runs _ _ _ _).trans (prep_etl_runs s))]
  unfold load_incremental
  dsimp only
  rw [hrid]
  cases hc : runIdPresentB s (incremental_run_id n) with
  | true => simp [hc]
  | false => simp [hc]

/-- Claim C8, evaluated on the code: on a fresh store the incremental
schema manager skips migration and the load pipeline succeeds, exactly as
claimed; but ensure_table_with_unique of scr/etl_refactor.py and
scr/etl_from_csv.py copies FROM personas_limpias before that table exists,
so the same fresh-store run of those pipelines raises OperationalError
instead of creating the table, contradicting its own docstring. -/
theorem c8_fresh_store_behavior (sf : String) (validos : List Canon)
    (rc : Nat) (n : Timestamp) (a p : String) :
    migrate_personas_limpias_if_needed emptyStore = emptyStore
    ∧ (load_incremental emptyStore sf validos rc n a p).ok = true
    ∧ (load_incremental emptyStore sf validos rc n a p).connClosed = true
    ∧ ensure_table_with_unique ⟨none⟩
        = .error "no such table: personas_limpias" := by
  have hrid : runIdPresentB (insertValidos (prepIncremental emptyStore) p
      (incremental_run_id n) validos) (incremental_run_id n) = false := by
    rw [runIdPresentB_congr
      ((iv_etl_runs _ _ _ _).trans (prep_etl_runs emptyStore))]
    rfl
  refine ⟨migrate_of_none rfl, ?_, ?_, rfl⟩
  · unfold load_incremental
    dsimp only
    rw [hrid]
    rfl
  · unfold load_incremental
    dsimp only
    rw [hrid]
    rfl

/-! ### The uniqueness invariant of the Person table -/

/-- No two rows of the Person table share a (nombre, edad, ciudad_id)
deduplication key. -/
def KeysNodup (s : Store) : Prop :=
  ((tableRows s).map PersonRow.key).Nodup

lemma KeysNodup_congr {s s' : Store} (h : s.personas = s'.personas) :
    KeysNodup s ↔ KeysNodup s' := by
  unfold KeysNodup
  rw [tableRows_congr h]

lemma key_not_mem_of_not_present {rows : List PersonRow}
    {k : String × Int × Nat} (h : keyPresentB rows k = false) :
    k ∉ rows.map PersonRow.key := by
  unfold keyPresentB at h
  rw [List.any_eq_false] at h
  intro hk
  obtain ⟨r, hr, hrk⟩ := List.mem_map.mp hk
  have := h r hr
  rw [hrk] at this
  simp at this

lemma nodup_append_singleton {α : Type} {l : List α} {a : α} (h : l.Nodup)
    (ha : a ∉ l) : (l ++ [a]).Nodup := by
  rw [List.nodup_append]
  exact ⟨h, List.nodup_singleton a, by simpa [List.disjoint_singleton] using ha⟩

lemma ipi_keysNodup {s : Store} (n : String) (e : Int) (c : Nat)
    (pa rid : String) (h : KeysNodup s) :
    KeysNodup (insertPersonOrIgnore s n e c pa rid) := by
  unfold insertPersonOrIgnore
  cases ht : s.personas with
  | none => exact h
  | some t =>
    dsimp only
    cases hk : keyPresentB t.rows (n, e, c) with
    | true => simpa using h
    | false =>
      simp only [Bool.false_eq_true, if_false]
      unfold KeysNodup at h ⊢
      unfold tableRows at h ⊢
      rw [ht] at h
      dsimp only
      rw [List.map_append]
      exact nodup_append_singleton h (key_not_mem_of_not_present hk)

lemma ls_keysNodup {s : Store} (pa rid : String) (v : Canon)
    (h : KeysNodup s) : KeysNodup (loadStep pa rid s v) := by
  unfold loadStep
  apply ipi_keysNodup
  rwa [KeysNodup_congr (gocc_personas s v.2.2)]

lemma iv_keysNodup (pa rid : String) (vs : List Canon) :
    ∀ {s : Store}, KeysNodup s → KeysNodup (insertValidos s pa rid vs) := by
  induction vs with
  | nil => intro s h; exact h
  | cons v vs ih =>
    intro s h
    rw [iv_cons]
    exact ih (ls_keysNodup pa rid v h)

lemma copyfold_keysNodup :
    ∀ (rest acc : List PersonRow), (acc.map PersonRow.key).Nodup →
      ((rest.foldl (fun acc r => copyOrIgnore acc (stampRow r)) acc).map
        PersonRow.key).Nodup := by
  intro rest
  induction rest with
  | nil => intro acc h; exact h
  | cons r rest ih =>
    intro acc h
    rw [List.foldl_cons]
    apply ih
    unfold copyOrIgnore
    cases hc : acc.any (fun x => x.key == (stampRow r).key
        || x.persona_id == (stampRow r).persona_id) with
    | true => simpa using h
    | false =>
      simp only [Bool.false_eq_true, if_false]
      rw [List.map_append]
      apply nodup_append_singleton h
      rw [List.any_eq_false] at hc
      intro hk
      obtain ⟨x, hx, hxk⟩ := List.mem_map.mp hk
      have := hc x hx
      rw [hxk] at this
      simp at this

lemma migrate_keysNodup {s : Store} (h : KeysNodup s) :
    KeysNodup (migrate_personas_limpias_if_needed s) := by
  unfold migrate_personas_limpias_if_needed
  cases ht : s.personas with
  | none => exact h
  | some t =>
    dsimp only
    cases ha : t.hasAudit with
    | true => simpa using h
    | false =>
      simp only [Bool.false_eq_true, if_false]
      unfold KeysNodup tableRows
      dsimp only
      exact copyfold_keysNodup t.rows [] (by simp)

lemma ensure_pl_keysNodup {s : Store} (h : KeysNodup s) :
    KeysNodup (ensure_personas_limpias s) := by
  unfold ensure_personas_limpias
  cases ht : s.personas with
  | some t => exact h
  | none =>
    unfold KeysNodup tableRows
    simp

lemma ensure_rel_keysNodup {s : Store} (h : KeysNodup s) :
    KeysNodup (ensure_schema_relational s) := by
  unfold ensure_schema_relational
  cases ht : s.personas with
  | some t => exact h
  | none =>
    unfold KeysNodup tableRows
    simp

lemma ensure_b_keysNodup {s : Store} (h : KeysNodup s) :
    KeysNodup (ensure_schema_b s) := by
  unfold ensure_schema_b
  cases ht : s.personas with
  | some t => exact h
  | none =>
    unfold KeysNodup tableRows
    simp

lemma prep_keysNodup {s : Store} (h : KeysNodup s) :
    KeysNodup (prepIncremental s) := by
  unfold prepIncremental ensure_etl_runs ensure_ciudades
  exact ensure_pl_keysNodup (migrate_keysNodup h)

lemma li_keysNodup {s : Store} (sf : String) (v : List Canon) (rc : Nat)
    (n : Timestamp) (a p : String) (h : KeysNodup s) :
    KeysNodup (load_incremental s sf v rc n a p).store := by
  rw [KeysNodup_congr (li_store_personas s sf v rc n a p)]
  exact iv_keysNodup _ _ _ (prep_keysNodup h)

lemma lb_keysNodup {s : Store} (sf : String) (v : List Canon) (rc : Nat)
    (n : Timestamp) (a : String) (h : KeysNodup s) :
    KeysNodup (load_batch s sf v rc n a).store := by
  obtain ⟨t, ht⟩ := ensure_b_some s
  cases hc : (!t.hasAudit && !v.isEmpty) with
  | true =>
    rw [lb_abort sf rc n a ht hc]
    exact h
  | false =>
    rw [KeysNodup_congr (lb_store_personas sf rc n a ht hc)]
    exact iv_keysNodup _ _ _ (ensure_b_keysNodup h)

lemma lr_keysNodup {s : Store} (v : List Canon) (h : KeysNodup s) :
    KeysNodup (load_relational s v) := by
  unfold load_relational
  cases he : v.isEmpty with
  | true => simpa using h
  | false =>
    simp only [he, Bool.false_eq_true, if_false]
    cases hp : (ensure_schema_relational s).personas with
    | none => exact ensure_rel_keysNodup h
    | some t =>
      dsimp only
      cases ha : t.hasAudit with
      | true => simpa using h
      | false =>
        simp only [Bool.false_eq_true, if_false]
        exact iv_keysNodup _ _ _ (ensure_rel_keysNodup h)

/-- Claim C3: in every store state reachable from a fresh store by any
sequence of schema-manager, migration and loader operations, no two rows of
the personas_limpias table share a (nombre, edad, ciudad_id) triple. -/
theorem c3_person_key_unique (s : Store) (h : Reachable s) :
    ((tableRows s).map PersonRow.key).Nodup := by
  induction h with
  | init => simp [emptyStore, tableRows]
  | migrate _ ih => exact migrate_keysNodup ih
  | ensureNew _ ih => exact ensure_pl_keysNodup ih
  | ensureOld _ ih => exact ensure_rel_keysNodup ih
  | ensureBatch _ ih => exact ensure_b_keysNodup ih
  | loadInc sf v rc n a p _ ih => exact li_keysNodup sf v rc n a p ih
  | loadBat sf v rc n a _ ih => exact lb_keysNodup sf v rc n a ih
  | loadRel v _ ih => exact lr_keysNodup v ih

/-- Witness for claim C3: a store reached by one incremental load of a
batch that repeats one record, whose Person table then has pairwise
distinct keys. -/
theorem c3_person_key_unique_witness :
    ((tableRows (load_incremental emptyStore "f.csv"
        [("Ana", 30, "Lima"), ("Ana", 30, "Lima"), ("Bo", 41, "Cusco")] 1
        ⟨2025, 3, 4, 5, 6, 7, 0⟩ "s" "p").store).map PersonRow.key).Nodup :=
  c3_person_key_unique _
    (Reachable.loadInc "f.csv"
      [("Ana", 30, "Lima"), ("Ana", 30, "Lima"), ("Bo", 41, "Cusco")] 1
      ⟨2025, 3, 4, 5, 6, 7, 0⟩ "s" "p" Reachable.init)

/-! ### Counting rows for one canonical record -/

lemma countKey_congr {s s' : Store} (h : s.personas = s'.personas)
    (k : String × Int × Nat) : countKey s k = countKey s' k := by
  unfold countKey
  rw [tableRows_congr h]

lemma matchCount_congr {s s' : Store} (h1 : s.ciudades = s'.ciudades)
    (h2 : s.personas = s'.personas) (v : Canon) :
    matchCount s v = matchCount s' v := by
  unfold matchCount
  rw [resolveCity_congr h1]
  cases resolveCity s' v.2.2 with
  | none => rfl
  | some cid => exact countKey_congr h2 (v.1, v.2.1, cid)

lemma countKey_zero_iff {s : Store} {k : String × Int × Nat} :
    countKey s k = 0 ↔ keyPresentB (tableRows s) k = false := by
  unfold countKey keyPresentB
  rw [List.countP_eq_zero, List.any_eq_false]

lemma matchCount_zero_iff {s : Store} {v : Canon} :
    matchCount s v = 0 ↔ settledB s v = false := by
  unfold matchCount settledB
  cases resolveCity s v.2.2 with
  | none => simp
  | some cid => rw [countKey_zero_iff]

lemma matchCount_one_elim {s : Store} {v : Canon} (h : matchCount s v = 1) :
    ∃ cid, resolveCity s v.2.2 = some cid
      ∧ countKey s (v.1, v.2.1, cid) = 1 := by
  unfold matchCount at h
  cases hr : resolveCity s v.2.2 with
  | none => rw [hr] at h; exact absurd h (by simp)
  | some cid => rw [hr] at h; exact ⟨cid, rfl, h⟩

lemma mem_of_findCity {s : Store} {name : String} {p : Nat × String}
    (h : findCity s name = some p) : p ∈ s.ciudades ∧ p.2 = name := by
  refine ⟨List.mem_of_find?_eq_some h, ?_⟩
  have := List.find?_some h
  simpa using this

lemma findCity_none_names {s : Store} {name : String}
    (h : findCity s name = none) : ∀ p ∈ s.ciudades, p.2 ≠ name := by
  intro p hp
  unfold findCity at h
  rw [List.find?_eq_none] at h
  have := h p hp
  simpa using this

lemma resolveCity_entry {s : Store} {name : String} {cid : Nat}
    (h : resolveCity s name = some cid) : (cid, name) ∈ s.ciudades := by
  obtain ⟨p, hp, hcid⟩ := resolveCity_some_iff.mp h
  obtain ⟨hmem, hname⟩ := mem_of_findCity hp
  have : p = (cid, name) := by
    cases p
    simp_all
  rwa [this] at hmem

lemma distinct_names_distinct_cids {s : Store} (hwf : StoreWF s)
    {n1 n2 : String} {c1 c2 : Nat} (h1 : resolveCity s n1 = some c1)
    (h2 : resolveCity s n2 = some c2) (hne : n1 ≠ n2) : c1 ≠ c2 := by
  intro hc
  subst hc
  have m1 := resolveCity_entry h1
  have m2 := resolveCity_entry h2
  have := List.inj_on_of_nodup_map hwf.idsNodup m1 m2 rfl
  exact hne (congrArg Prod.snd this)

lemma keyPresentB_false_of_unref_cid {s : Store} (hwf : StoreWF s)
    {cid : Nat} (h : ∀ p ∈ s.ciudades, p.1 ≠ cid) (n : String) (e : Int) :
    keyPresentB (tableRows s) (n, e, cid) = false := by
  rw [← countKey_zero_iff, countKey_zero_iff]
  unfold keyPresentB
  rw [List.any_eq_false]
  intro r hr
  obtain ⟨p, hp, hpc⟩ := hwf.fk r hr
  simp only [Bool.not_eq_true, beq_eq_false_iff_ne, ne_eq]
  intro hk
  have : r.ciudad_id = cid := by
    have := congrArg (fun q => q.2.2) hk
    simpa [PersonRow.key] using this
  exact h p hp (hpc.trans this)

/-! ### Preservation of the schema constraints -/

lemma gocc_wf {s : Store} (c : String) (hwf : StoreWF s) :
    StoreWF (get_or_create_city_id s c).1 := by
  cases hf : findCity s c with
  | some p => rw [gocc_found hf]; exact hwf
  | none =>
    rw [gocc_notfound hf]
    refine ⟨?_, ?_, ?_, ?_⟩
    · show ((s.ciudades ++ [(s.ciudadesNextId, c)]).map Prod.snd).Nodup
      rw [List.map_append]
      apply nodup_append_singleton hwf.namesNodup
      intro hc
      obtain ⟨p, hp, hpc⟩ := List.mem_map.mp hc
      exact findCity_none_names hf p hp hpc
    · show ((s.ciudades ++ [(s.ciudadesNextId, c)]).map Prod.fst).Nodup
      rw [List.map_append]
      apply nodup_append_singleton hwf.idsNodup
      intro hc
      obtain ⟨p, hp, hpc⟩ := List.mem_map.mp hc
      exact absurd hpc (Nat.ne_of_lt (hwf.idsBounded p hp))
    · intro p hp
      rcases List.mem_append.mp hp with hp | hp
      · exact Nat.lt_succ_of_lt (hwf.idsBounded p hp)
      · have : p = (s.ciudadesNextId, c) := by simpa using hp
        rw [this]
        exact Nat.lt_succ_self _
    · intro r hr
      obtain ⟨p, hp, hpc⟩ := hwf.fk r hr
      exact ⟨p, List.mem_append_left _ hp, hpc⟩

lemma ipi_wf {s : Store} {c : Nat} (n : String) (e : Int) (pa rid : String)
    (hwf : StoreWF s) (hc : ∃ p ∈ s.ciudades, p.1 = c) :
    StoreWF (insertPersonOrIgnore s n e c pa rid) := by
  unfold insertPersonOrIgnore
  cases ht : s.personas with
  | none => exact hwf
  | some t =>
    dsimp only
    cases hk : keyPresentB t.rows (n, e, c) with
    | true => simpa using hwf
    | false =>
      simp only [Bool.false_eq_true, if_false]
      refine ⟨hwf.namesNodup, hwf.idsNodup, hwf.idsBounded, ?_⟩
      intro r hr
      unfold tableRows at hr
      dsimp only at hr
      rcases List.mem_append.mp hr with hr | hr
      · exact hwf.fk r (by rw [tableRows, ht]; exact hr)
      · have : r = ⟨t.nextId, n, e, c, pa, rid⟩ := by simpa using hr
        rw [this]
        exact hc

lemma ls_wf {s : Store} (pa rid : String) (v : Canon) (hwf : StoreWF s) :
    StoreWF (loadStep pa rid s v) := by
  unfold loadStep
  apply ipi_wf _ _ _ _ (gocc_wf v.2.2 hwf)
  obtain ⟨hmem, _⟩ := mem_of_findCity (gocc_resolves s v.2.2)
  exact ⟨_, hmem, rfl⟩

/-- State in which the insert loop runs: schema constraints hold and the
Person table exists. -/
def GoodState (s : Store) : Prop :=
  StoreWF s ∧ ∃ t, s.personas = some t

lemma ls_good {s : Store} (pa rid : String) (v : Canon)
    (hg : GoodState s) : GoodState (loadStep pa rid s v) := by
  obtain ⟨hwf, t, ht⟩ := hg
  obtain ⟨t', ht', _⟩ := ls_personas_some pa rid v ht
  exact ⟨ls_wf pa rid v hwf, t', ht'⟩

lemma copyfold_mem :
    ∀ (rest acc : List PersonRow) (x : PersonRow),
      x ∈ rest.foldl (fun acc r => copyOrIgnore acc (stampRow r)) acc →
      x ∈ acc ∨ ∃ r ∈ rest, x = stampRow r := by
  intro rest
  induction rest with
  | nil => intro acc x hx; exact Or.inl hx
  | cons r rest ih =>
    intro acc x hx
    rw [List.foldl_cons] at hx
    rcases ih _ x hx with hx | ⟨r', hr', hx⟩
    · unfold copyOrIgnore at hx
      split at hx
      · exact Or.inl hx
      · rcases List.mem_append.mp hx with hx | hx
        · exact Or.inl hx
        · exact Or.inr ⟨r, List.mem_cons_self r rest, by simpa using hx⟩
    · exact Or.inr ⟨r', List.mem_cons_of_mem r hr', hx⟩

lemma migrate_ciudades (s : Store) :
    (migrate_personas_limpias_if_needed s).ciudades = s.ciudades := by
  unfold migrate_personas_limpias_if_needed
  cases s.personas with
  | none => rfl
  | some t => dsimp only; split <;> rfl

lemma ensure_pl_ciudades (s : Store) :
    (ensure_personas_limpias s).ciudades = s.ciudades := by
  unfold ensure_personas_limpias
  cases s.personas <;> rfl

lemma prep_ciudades (s : Store) :
    (prepIncremental s).ciudades = s.ciudades := by
  unfold prepIncremental ensure_etl_runs ensure_ciudades
  rw [ensure_pl_ciudades, migrate_ciudades]

lemma migrate_ciudadesNextId (s : Store) :
    (migrate_personas_limpias_if_needed s).ciudadesNextId
      = s.ciudadesNextId := by
  unfold migrate_personas_limpias_if_needed
  cases s.personas with
  | none => rfl
  | some t => dsimp only; split <;> rfl

lemma ensure_pl_ciudadesNextId (s : Store) :
    (ensure_personas_limpias s).ciudadesNextId = s.ciudadesNextId := by
  unfold ensure_personas_limpias
  cases s.personas <;> rfl

lemma prep_ciudadesNextId (s : Store) :
    (prepIncremental s).ciudadesNextId = s.ciudadesNextId := by
  unfold prepIncremental ensure_etl_runs ensure_ciudades
  rw [ensure_pl_ciudadesNextId, migrate_ciudadesNextId]

lemma migrate_wf {s : Store} (hwf : StoreWF s) :
    StoreWF (migrate_personas_limpias_if_needed s) := by
  cases ht : s.personas with
  | none => rwa [migrate_of_none ht]
  | some t =>
    cases ha : t.hasAudit with
    | true => rwa [migrate_of_audit ht ha]
    | false =>
      rw [migrate_of_old ht ha]
      refine ⟨hwf.namesNodup, hwf.idsNodup, hwf.idsBounded, ?_⟩
      intro r hr
      unfold tableRows at hr
      dsimp only at hr
      rcases copyfold_mem t.rows [] r hr with hr | ⟨r', hr', hx⟩
      · exact absurd hr (List.not_mem_nil r)
      · have : r.ciudad_id = r'.ciudad_id := by rw [hx]; rfl
        rw [this]
        exact hwf.fk r' (by rw [tableRows, ht]; exact hr')

lemma ensure_pl_wf {s : Store} (hwf : StoreWF s) :
    StoreWF (ensure_personas_limpias s) := by
  cases ht : s.personas with
  | some t => rwa [ensure_pl_of_some ht]
  | none =>
    rw [ensure_pl_of_none ht]
    refine ⟨hwf.namesNodup, hwf.idsNodup, hwf.idsBounded, ?_⟩
    intro r hr
    exact absurd hr (List.not_mem_nil r)

lemma prep_wf {s : Store} (hwf : StoreWF s) :
    StoreWF (prepIncremental s) := by
  unfold prepIncremental ensure_etl_runs ensure_ciudades
  exact ensure_pl_wf (migrate_wf hwf)

lemma prep_good {s : Store} (hwf : StoreWF s) :
    GoodState (prepIncremental s) := by
  obtain ⟨t, ht, _⟩ := prep_personas_audit s
  exact ⟨prep_wf hwf, t, ht⟩

lemma keyPresentB_true_iff {rows : List PersonRow} {k : String × Int × Nat} :
    keyPresentB rows k = true ↔ ∃ r ∈ rows, r.key = k := by
  unfold keyPresentB
  rw [List.any_eq_true]
  simp

lemma migrate_keyPresent_rev {s : Store} {k : String × Int × Nat}
    (h : keyPresentB (tableRows (migrate_personas_limpias_if_needed s)) k
      = true) : keyPresentB (tableRows s) k = true := by
  cases ht : s.personas with
  | none => rwa [migrate_of_none ht] at h
  | some t =>
    cases ha : t.hasAudit with
    | true => rwa [migrate_of_audit ht ha] at h
    | false =>
      rw [migrate_of_old ht ha] at h
      rw [keyPresentB_true_iff] at h ⊢
      obtain ⟨r, hr, hk⟩ := h
      unfold tableRows at hr
      dsimp only at hr
      rcases copyfold_mem t.rows [] r hr with hr | ⟨r', hr', hx⟩
      · exact absurd hr (List.not_mem_nil r)
      · refine ⟨r', by rw [tableRows, ht]; exact hr', ?_⟩
        rw [← hk, hx]
        rfl

lemma prep_settled_false {s : Store} {v : Canon}
    (h : settledB s v = false) : settledB (prepIncremental s) v = false := by
  cases hp : settledB (prepIncremental s) v with
  | false => rfl
  | true =>
    exfalso
    unfold settledB at hp
    cases hr : resolveCity (prepIncremental s) v.2.2 with
    | none =>
      rw [hr] at hp
      have hb : (false : Bool) = true := hp
      exact absurd hb (by simp)
    | some cid =>
      rw [hr] at hp
      have hkp : keyPresentB (tableRows (prepIncremental s))
          (v.1, v.2.1, cid) = true := hp
      have hr2 : resolveCity s v.2.2 = some cid := by
        rwa [resolveCity_congr (prep_ciudades s)] at hr
      cases hps : s.personas with
      | none =>
        have hempty : tableRows (prepIncremental s) = [] := by
          unfold prepIncremental ensure_etl_runs ensure_ciudades
          rw [migrate_of_none hps, ensure_pl_of_none hps]
          rfl
        rw [hempty] at hkp
        have hb : (false : Bool) = true := hkp
        exact absurd hb (by simp)
      | some t =>
        have hmig :
            (migrate_personas_limpias_if_needed s).personas.isSome = true := by
          cases ha : t.hasAudit with
          | true => rw [migrate_of_audit hps ha, hps]; rfl
          | false => rw [migrate_of_old hps ha]; rfl
        obtain ⟨tm, htm⟩ := Option.isSome_iff_exists.mp hmig
        have hprep :
            prepIncremental s = migrate_personas_limpias_if_needed s := by
          unfold prepIncremental ensure_etl_runs ensure_ciudades
          rw [ensure_pl_of_some htm]
        rw [hprep] at hkp
        have hrev := migrate_keyPresent_rev hkp
        have hfalse : keyPresentB (tableRows s) (v.1, v.2.1, cid) = false := by
          unfold settledB at h
          rw [hr2] at h
          exact h
        rw [hrev] at hfalse
        exact absurd hfalse (by simp)

/-! ### One loop step and one canonical record -/

lemma resolveCity_none_iff {s : Store} {name : String} :
    resolveCity s name = none ↔ findCity s name = none := by
  unfold resolveCity
  cases findCity s name <;> simp

lemma findCity_of_resolve {s : Store} {name : String} {cid : Nat}
    (h : resolveCity s name = some cid) : findCity s name = some (cid, name) := by
  obtain ⟨p, hp, hcid⟩ := resolveCity_some_iff.mp h
  have hname := (mem_of_findCity hp).2
  have : p = (cid, name) := by cases p; simp_all
  rwa [this] at hp

lemma gocc_resolve_self (s : Store) (c : String) :
    resolveCity (get_or_create_city_id s c).1 c
      = some (get_or_create_city_id s c).2 := by
  unfold resolveCity
  rw [gocc_resolves]
  rfl

lemma gocc_resolve_other {s : Store} {c name : String} (hne : c ≠ name)
    (hn : resolveCity s name = none) :
    resolveCity (get_or_create_city_id s c).1 name = none := by
  rw [resolveCity_none_iff] at hn ⊢
  cases hf : findCity s c with
  | some q => rw [gocc_found hf]; exact hn
  | none =>
    rw [gocc_notfound hf]
    unfold findCity at hn ⊢
    dsimp only
    rw [find?_append_none _ _ hn]
    simp [hne]

lemma tableRows_of_some {s : Store} {t : PersonTable}
    (h : s.personas = some t) : tableRows s = t.rows := by
  unfold tableRows
  rw [h]

lemma countP_key_zero {rows : List PersonRow} {k : String × Int × Nat}
    (h : keyPresentB rows k = false) :
    rows.countP (fun r => r.key == k) = 0 := by
  rw [List.countP_eq_zero]
  unfold keyPresentB at h
  rw [List.any_eq_false] at h
  exact h

lemma ipi_countKey_other {s : Store} {t : PersonTable}
    (ht : s.personas = some t) (n : String) (e : Int) (c : Nat)
    (pa rid : String) {k : String × Int × Nat} (hk : (n, e, c) ≠ k) :
    countKey (insertPersonOrIgnore s n e c pa rid) k = countKey s k := by
  unfold insertPersonOrIgnore
  rw [ht]
  dsimp only
  split
  · rfl
  · show ((t.rows ++ ([⟨t.nextId, n, e, c, pa, rid⟩] : List PersonRow)).countP
        (fun r => r.key == k)) = countKey s k
    rw [List.countP_append]
    have h1 : (([⟨t.nextId, n, e, c, pa, rid⟩] : List PersonRow)).countP
        (fun r => r.key == k) = 0 := by
      rw [List.countP_eq_zero]
      intro r hr
      have hre : r = ⟨t.nextId, n, e, c, pa, rid⟩ := by simpa using hr
      rw [hre]
      simp only [Bool.not_eq_true, beq_eq_false_iff_ne, ne_eq]
      exact hk
    rw [h1, countKey, tableRows_of_some ht]
    omega

lemma canon_key_ne {w v : Canon} (hne : w ≠ v) (hc : w.2.2 = v.2.2)
    (cid : Nat) : (w.1, w.2.1, cid) ≠ (v.1, v.2.1, cid) := by
  intro h
  apply hne
  obtain ⟨w1, w2, w3⟩ := w
  obtain ⟨v1, v2, v3⟩ := v
  simp_all

lemma ls_insert_fresh {s : Store} (pa rid : String) (v : Canon)
    (hg : GoodState s) (hns : settledB s v = false) :
    settledB (loadStep pa rid s v) v = true
    ∧ matchCount (loadStep pa rid s v) v = 1
    ∧ countPersons (loadStep pa rid s v) = countPersons s + 1 := by
  obtain ⟨hwf, t, ht⟩ := hg
  have htg : (get_or_create_city_id s v.2.2).1.personas = some t :=
    (gocc_personas _ _).trans ht
  have habs : keyPresentB (tableRows (get_or_create_city_id s v.2.2).1)
      (v.1, v.2.1, (get_or_create_city_id s v.2.2).2) = false := by
    cases hf : findCity s v.2.2 with
    | some p =>
      rw [gocc_found hf]
      have hres : resolveCity s v.2.2 = some p.1 := by
        unfold resolveCity
        rw [hf]
        rfl
      unfold settledB at hns
      rw [hres] at hns
      exact hns
    | none =>
      rw [gocc_notfound hf]
      exact keyPresentB_false_of_unref_cid hwf
        (fun p hp => Nat.ne_of_lt (hwf.idsBounded p hp)) v.1 v.2.1
  have habs' : keyPresentB t.rows
      (v.1, v.2.1, (get_or_create_city_id s v.2.2).2) = false := by
    rwa [tableRows_of_some htg] at habs
  have hstep : loadStep pa rid s v
      = Store.mk (get_or_create_city_id s v.2.2).1.ciudades
          (get_or_create_city_id s v.2.2).1.ciudadesNextId
          (some (PersonTable.mk t.hasAudit
            (t.rows ++ [PersonRow.mk t.nextId v.1 v.2.1
              (get_or_create_city_id s v.2.2).2 pa rid])
            (t.nextId + 1)))
          (get_or_create_city_id s v.2.2).1.etl_runs := by
    unfold loadStep
    exact ipi_of_absent htg habs'
  refine ⟨ls_settles pa rid v ht, ?_, ?_⟩
  · have hres : resolveCity (loadStep pa rid s v) v.2.2
        = some (get_or_create_city_id s v.2.2).2 := by
      unfold loadStep
      rw [resolveCity_congr (ipi_ciudades _ _ _ _ _ _)]
      exact gocc_resolve_self s v.2.2
    unfold matchCount
    rw [hres, hstep]
    show ((t.rows ++ [PersonRow.mk t.nextId v.1 v.2.1
        (get_or_create_city_id s v.2.2).2 pa rid]).countP
        (fun r => r.key == (v.1, v.2.1, (get_or_create_city_id s v.2.2).2)))
      = 1
    rw [List.countP_append, countP_key_zero habs']
    simp [PersonRow.key]
  · rw [hstep]
    show (t.rows ++ [PersonRow.mk t.nextId v.1 v.2.1
        (get_or_create_city_id s v.2.2).2 pa rid]).length
      = countPersons s + 1
    rw [List.length_append]
    unfold countPersons
    rw [tableRows_of_some ht]
    rfl

lemma ls_other_matchCount {s : Store} (pa rid : String) {w v : Canon}
    (hg : GoodState s) (hne : w ≠ v) :
    matchCount (loadStep pa rid s w) v = matchCount s v := by
  obtain ⟨hwf, t, ht⟩ := hg
  have htg : (get_or_create_city_id s w.2.2).1.personas = some t :=
    (gocc_personas _ _).trans ht
  cases hrv : resolveCity s v.2.2 with
  | some cid =>
    have hres' : resolveCity (loadStep pa rid s w) v.2.2 = some cid :=
      ls_resolve_mono pa rid w hrv
    unfold matchCount
    rw [hrv, hres']
    show countKey (loadStep pa rid s w) (v.1, v.2.1, cid)
      = countKey s (v.1, v.2.1, cid)
    have hkc : countKey (loadStep pa rid s w) (v.1, v.2.1, cid)
        = countKey (get_or_create_city_id s w.2.2).1 (v.1, v.2.1, cid) := by
      unfold loadStep
      apply ipi_countKey_other htg
      by_cases hcity : w.2.2 = v.2.2
      · have hf : findCity s w.2.2 = some (cid, v.2.2) := by
          rw [hcity]
          exact findCity_of_resolve hrv
        rw [gocc_found hf]
        exact canon_key_ne hne hcity cid
      · cases hf : findCity s w.2.2 with
        | some q =>
          rw [gocc_found hf]
          have hrw : resolveCity s w.2.2 = some q.1 := by
            unfold resolveCity
            rw [hf]
            rfl
          have : q.1 ≠ cid := distinct_names_distinct_cids hwf hrw hrv hcity
          intro hk
          exact this (congrArg (fun p => p.2.2) hk)
        | none =>
          rw [gocc_notfound hf]
          dsimp only
          have hcid : cid < s.ciudadesNextId :=
            hwf.idsBounded _ (resolveCity_entry hrv)
          intro hk
          have : s.ciudadesNextId = cid := congrArg (fun p => p.2.2) hk
          omega
    rw [hkc, countKey_congr (gocc_personas s w.2.2)]
  | none =>
    have hzero : matchCount s v = 0 := by
      unfold matchCount
      rw [hrv]
    rw [hzero]
    by_cases hcity : w.2.2 = v.2.2
    · cases hf : findCity s w.2.2 with
      | some q =>
        have : resolveCity (loadStep pa rid s w) v.2.2 = none := by
          unfold loadStep
          rw [resolveCity_congr (ipi_ciudades _ _ _ _ _ _), gocc_found hf]
          exact hrv
        unfold matchCount
        rw [this]
      | none =>
        have hres : resolveCity (loadStep pa rid s w) v.2.2
            = some (get_or_create_city_id s w.2.2).2 := by
          unfold loadStep
          rw [resolveCity_congr (ipi_ciudades _ _ _ _ _ _), ← hcity]
          exact gocc_resolve_self s w.2.2
        unfold matchCount
        rw [hres]
        have hg2 : (get_or_create_city_id s w.2.2).2 = s.ciudadesNextId := by
          rw [gocc_notfound hf]
        have hzg : countKey (get_or_create_city_id s w.2.2).1
            (v.1, v.2.1, (get_or_create_city_id s w.2.2).2) = 0 := by
          rw [countKey_zero_iff, tableRows_congr (gocc_personas s w.2.2),
            hg2]
          exact keyPresentB_false_of_unref_cid hwf
            (fun p hp => Nat.ne_of_lt (hwf.idsBounded p hp)) v.1 v.2.1
        show countKey (loadStep pa rid s w)
            (v.1, v.2.1, (get_or_create_city_id s w.2.2).2) = 0
        unfold loadStep
        rw [ipi_countKey_other htg _ _ _ _ _
          (canon_key_ne hne hcity (get_or_create_city_id s w.2.2).2)]
        exact hzg
    · have : resolveCity (loadStep pa rid s w) v.2.2 = none := by
        unfold loadStep
        rw [resolveCity_congr (ipi_ciudades _ _ _ _ _ _)]
        exact gocc_resolve_other hcity hrv
      unfold matchCount
      rw [this]

lemma ls_keeps_one (pa rid : String) (w v : Canon) {s : Store}
    (hg : GoodState s) (h1 : settledB s v = true) (h2 : matchCount s v = 1) :
    GoodState (loadStep pa rid s w)
    ∧ settledB (loadStep pa rid s w) v = true
    ∧ matchCount (loadStep pa rid s w) v = 1 := by
  by_cases hw : w = v
  · subst hw
    rw [ls_noop pa rid h1]
    exact ⟨hg, h1, h2⟩
  · have hm := ls_other_matchCount pa rid hg hw
    rw [h2] at hm
    refine ⟨ls_good pa rid w hg, ?_, hm⟩
    cases hs : settledB (loadStep pa rid s w) v with
    | true => rfl
    | false =>
      have := matchCount_zero_iff.mpr hs
      rw [hm] at this
      exact absurd this (by norm_num)

lemma iv_keeps_one (pa rid : String) (v : Canon) :
    ∀ (vs : List Canon) {s : Store}, GoodState s → settledB s v = true →
      matchCount s v = 1 →
      GoodState (insertValidos s pa rid vs)
      ∧ settledB (insertValidos s pa rid vs) v = true
      ∧ matchCount (insertValidos s pa rid vs) v = 1 := by
  intro vs
  induction vs with
  | nil => intro s hg h1 h2; exact ⟨hg, h1, h2⟩
  | cons w vs ih =>
    intro s hg h1 h2
    rw [iv_cons]
    obtain ⟨hg', h1', h2'⟩ := ls_keeps_one pa rid w v hg h1 h2
    exact ih hg' h1' h2'

lemma iv_first (pa rid : String) (v : Canon) :
    ∀ (vs : List Canon) {s : Store}, GoodState s → settledB s v = false →
      v ∈ vs →
      settledB (insertValidos s pa rid vs) v = true
      ∧ matchCount (insertValidos s pa rid vs) v = 1 := by
  intro vs
  induction vs with
  | nil => intro s _ _ hmem; exact absurd hmem (List.not_mem_nil v)
  | cons w vs ih =>
    intro s hg hns hmem
    rw [iv_cons]
    by_cases hw : w = v
    · subst hw
      obtain ⟨h1, h2, _⟩ := ls_insert_fresh pa rid w hg hns
      obtain ⟨_, h4, h5⟩ := iv_keeps_one pa rid w vs (ls_good pa rid w hg) h1 h2
      exact ⟨h4, h5⟩
    · have hm := ls_other_matchCount pa rid hg hw
      rw [matchCount_zero_iff.mpr hns] at hm
      have hns' : settledB (loadStep pa rid s w) v = false :=
        matchCount_zero_iff.mp hm
      have hmem' : v ∈ vs := by
        rcases List.mem_cons.mp hmem with h | h
        · exact absurd h.symm hw
        · exact h
      exact ih (ls_good pa rid w hg) hns' hmem'

/-- Claim C10: reported counters always satisfy
inserted_new + ignored_duplicates = number of valid records; and when a
batch mentions a canonical record that is not yet represented in the store
more than once, the load creates exactly one Person row for it (conjunct
two: exactly one row holds the key the record's city resolves to), counting
one occurrence as inserted and the rest as ignored duplicates (conjunct
three, for a batch made of that record).  The StoreWF hypothesis is the set
of constraints the schema enforces: UNIQUE city names, distinct city ids
below the autoincrement counter, and person rows referencing existing
cities. -/
theorem c10_duplicate_triple_single_row :
    (∀ (s : Store) (sf : String) (validos : List Canon) (rc : Nat)
        (n : Timestamp) (a p : String),
      (load_incremental s sf validos rc n a p).inserted_new
        + (load_incremental s sf validos rc n a p).ignored_duplicates
        = (validos.length : Int))
    ∧ (∀ (s : Store) (sf : String) (validos : List Canon) (rc : Nat)
        (n : Timestamp) (a p : String) (v : Canon),
      StoreWF s → 2 ≤ validos.count v → settledB s v = false →
      ∃ cid, resolveCity (load_incremental s sf validos rc n a p).store v.2.2
          = some cid
        ∧ countKey (load_incremental s sf validos rc n a p).store
            (v.1, v.2.1, cid) = 1)
    ∧ (∀ (s : Store) (sf : String) (rc : Nat) (n : Timestamp) (a p : String)
        (v : Canon) (k : Nat),
      StoreWF s → settledB s v = false → 2 ≤ k →
      (load_incremental s sf (List.replicate k v) rc n a p).inserted_new = 1
      ∧ (load_incremental s sf (List.replicate k v) rc n a
          p).ignored_duplicates = (k : Int) - 1) := by
  refine ⟨?_, ?_, ?_⟩
  · intro s sf validos rc n a p
    rw [li_ignored]
    omega
  · intro s sf validos rc n a p v hwf hcount hns
    have hmem : v ∈ validos := by
      have : 0 < validos.count v := by omega
      exact List.count_pos_iff.mp this
    obtain ⟨hs1, hm1⟩ := iv_first p (incremental_run_id n) v validos
      (prep_good hwf) (prep_settled_false hns) hmem
    have hmo : matchCount (load_incremental s sf validos rc n a p).store v
        = 1 := by
      rw [matchCount_congr (li_store_ciudades s sf validos rc n a p)
        (li_store_personas s sf validos rc n a p)]
      exact hm1
    exact matchCount_one_elim hmo
  · intro s sf rc n a p v k hwf hns hk
    obtain ⟨kk, rfl⟩ : ∃ kk, k = kk + 1 := ⟨k - 1, by omega⟩
    obtain ⟨h1, h2, h3⟩ := ls_insert_fresh p (incremental_run_id n) v
      (prep_good hwf) (prep_settled_false hns)
    have hrest : insertValidos
        (loadStep p (incremental_run_id n) (prepIncremental s) v) p
        (incremental_run_id n) (List.replicate kk v)
        = loadStep p (incremental_run_id n) (prepIncremental s) v := by
      apply iv_noop
      intro w hw
      rw [List.eq_of_mem_replicate hw]
      exact h1
    have hiv : insertValidos (prepIncremental s) p (incremental_run_id n)
        (List.replicate (kk + 1) v)
        = loadStep p (incremental_run_id n) (prepIncremental s) v := by
      rw [List.replicate_succ, iv_cons, hrest]
    constructor
    · rw [li_inserted, hiv, h3]
      push_cast
      ring
    · rw [li_ignored, li_inserted, hiv, h3, List.length_replicate]
      push_cast
      ring

/-- Witness for claim C10: a fresh store and the batch that lists the same
canonical record twice. -/
theorem c10_duplicate_triple_single_row_witness :
    ((load_incremental emptyStore "f.csv"
        [("Ana", 30, "Lima"), ("Ana", 30, "Lima")] 0 ⟨2025, 1, 2, 3, 4, 5, 0⟩
        "a" "p").inserted_new
      + (load_incremental emptyStore "f.csv"
          [("Ana", 30, "Lima"), ("Ana", 30, "Lima")] 0 ⟨2025, 1, 2, 3, 4, 5, 0⟩
          "a" "p").ignored_duplicates
      = (([("Ana", 30, "Lima"), ("Ana", 30, "Lima")] : List Canon).length
          : Int))
    ∧ (∃ cid, resolveCity (load_incremental emptyStore "f.csv"
          [("Ana", 30, "Lima"), ("Ana", 30, "Lima")] 0 ⟨2025, 1, 2, 3, 4, 5, 0⟩
          "a" "p").store "Lima" = some cid
        ∧ countKey (load_incremental emptyStore "f.csv"
            [("Ana", 30, "Lima"), ("Ana", 30, "Lima")] 0
            ⟨2025, 1, 2, 3, 4, 5, 0⟩ "a" "p").store ("Ana", 30, cid) = 1)
    ∧ ((load_incremental emptyStore "f.csv"
        (List.replicate 2 ("Ana", 30, "Lima")) 0 ⟨2025, 1, 2, 3, 4, 5, 0⟩
        "a" "p").inserted_new = 1
      ∧ (load_incremental emptyStore "f.csv"
          (List.replicate 2 ("Ana", 30, "Lima")) 0 ⟨2025, 1, 2, 3, 4, 5, 0⟩
          "a" "p").ignored_duplicates = (2 : Int) - 1) := by
  have hwf : StoreWF emptyStore := ⟨List.nodup_nil, List.nodup_nil,
    by intro p hp; exact absurd hp (List.not_mem_nil p),
    by intro r hr; exact absurd hr (List.not_mem_nil r)⟩
  refine ⟨c10_duplicate_triple_single_row.1 emptyStore "f.csv" _ 0 _ "a" "p",
    c10_duplicate_triple_single_row.2.1 emptyStore "f.csv" _ 0 _ "a" "p"
      ("Ana", 30, "Lima") hwf (by decide) (by decide),
    c10_duplicate_triple_single_row.2.2 emptyStore "f.csv" 0 _ "a" "p"
      ("Ana", 30, "Lima") 2 hwf (by decide) (by norm_num)⟩

end ETL
